import Mathlib

/-!
Verification of the core ray-tracing routines of the `rust-tracer` repository.

The Rust source is shallowly embedded: `f64` arithmetic is idealized as real
arithmetic (`ℝ`), except where a claim is specifically about IEEE-754
non-finite values, in which case a dedicated model `FP` (rationals extended
with infinities and NaN) is used.  Every definition mirrors one function of
the source tree; the file ends with the theorems settling the claims.
-/

namespace RustTracer

/-- `Vec3` (src/vec3.rs): three `f64` components. -/
structure Vec3 where
  x : ℝ
  y : ℝ
  z : ℝ

/-- Componentwise addition (`impl Add for Vec3`). -/
noncomputable instance : Add Vec3 := ⟨fun a b => ⟨a.x + b.x, a.y + b.y, a.z + b.z⟩⟩

/-- Componentwise subtraction (`impl Sub for Vec3`). -/
noncomputable instance : Sub Vec3 := ⟨fun a b => ⟨a.x - b.x, a.y - b.y, a.z - b.z⟩⟩

/-- Componentwise multiplication (`impl Mul for Vec3`). -/
noncomputable instance : Mul Vec3 := ⟨fun a b => ⟨a.x * b.x, a.y * b.y, a.z * b.z⟩⟩

/-- Negation (`impl Neg for Vec3`). -/
noncomputable instance : Neg Vec3 := ⟨fun a => ⟨-a.x, -a.y, -a.z⟩⟩

/-- Scalar-on-the-left multiplication (`impl Mul<Vec3> for f64`). -/
noncomputable instance : HMul ℝ Vec3 Vec3 := ⟨fun c v => ⟨c * v.x, c * v.y, c * v.z⟩⟩

/-- Vector-times-scalar multiplication (`impl Mul<f64> for Vec3`). -/
noncomputable instance : HMul Vec3 ℝ Vec3 := ⟨fun v c => ⟨c * v.x, c * v.y, c * v.z⟩⟩

/-- Division by a scalar (`impl Div<f64> for Vec3`): multiplies by `1/c`. -/
noncomputable instance : HDiv Vec3 ℝ Vec3 := ⟨fun v c => ⟨v.x * (1 / c), v.y * (1 / c), v.z * (1 / c)⟩⟩

/-- Scalar broadcast subtraction, used by `Sphere::bounding_box`
(`self.center - self.radius`). -/
noncomputable instance : HSub Vec3 ℝ Vec3 := ⟨fun v c => ⟨v.x - c, v.y - c, v.z - c⟩⟩

/-- Scalar broadcast addition, used by `Sphere::bounding_box`
(`self.center + self.radius`). -/
noncomputable instance : HAdd Vec3 ℝ Vec3 := ⟨fun v c => ⟨v.x + c, v.y + c, v.z + c⟩⟩

/-- `dot` (src/vec3.rs). -/
def dot (v1 v2 : Vec3) : ℝ := v1.x * v2.x + v1.y * v2.y + v1.z * v2.z

/-- `Vec3::length` (src/vec3.rs). -/
noncomputable def Vec3.length (v : Vec3) : ℝ :=
  Real.sqrt (v.x * v.x + v.y * v.y + v.z * v.z)

/-- `unit_vector` (src/vec3.rs). -/
noncomputable def unit_vector (v : Vec3) : Vec3 := v / v.length

/-- `Ray` (src/ray.rs). -/
structure Ray where
  origin : Vec3
  direction : Vec3
  invert_direction : Vec3
  signX : Bool
  signY : Bool
  signZ : Bool
  time : ℝ

open Classical in
/-- `Ray::new` (src/ray.rs): caches the inverse direction and its sign bits. -/
noncomputable def Ray.new (origin direction : Vec3) (time : ℝ) : Ray :=
  let invert_direction : Vec3 :=
    ⟨1 / direction.x, 1 / direction.y, 1 / direction.z⟩
  { origin := origin
    direction := direction
    invert_direction := invert_direction
    signX := decide (invert_direction.x < 0)
    signY := decide (invert_direction.y < 0)
    signZ := decide (invert_direction.z < 0)
    time := time }

/-- `Ray::point_at_param` (src/ray.rs). -/
noncomputable def Ray.point_at_param (self : Ray) (t : ℝ) : Vec3 :=
  self.origin + t * self.direction

/-- `AxisAlignedBoundingBox` (src/bounding_boxes/axis_aligned.rs).  The
source also stores the redundant array `bounds = [min_bound, max_bound]`,
modelled here by the accessor `AxisAlignedBoundingBox.bounds`. -/
structure AxisAlignedBoundingBox where
  min_bound : Vec3
  max_bound : Vec3

/-- `bounds[i]` of the source: index `false` (0) is the min corner,
`true` (1) the max corner. -/
def AxisAlignedBoundingBox.bounds (self : AxisAlignedBoundingBox) : Bool → Vec3 :=
  fun s => if s then self.max_bound else self.min_bound

open Classical in
/-- `AxisAlignedBoundingBox::hit` (src/bounding_boxes/axis_aligned.rs):
the Williams et al. slab test using the cached inverse direction and sign
bits, unrolled over the three axes exactly as in the source. -/
noncomputable def AxisAlignedBoundingBox.hit (self : AxisAlignedBoundingBox)
    (ray : Ray) (t_min t_max : ℝ) : Bool :=
  let t_min_x := ((self.bounds ray.signX).x - ray.origin.x) * ray.invert_direction.x
  let t_max_x := ((self.bounds (!ray.signX)).x - ray.origin.x) * ray.invert_direction.x
  let t_y_min := ((self.bounds ray.signY).y - ray.origin.y) * ray.invert_direction.y
  let t_y_max := ((self.bounds (!ray.signY)).y - ray.origin.y) * ray.invert_direction.y
  if t_min_x > t_y_max ∨ t_y_min > t_max_x then false
  else
    let t_min_xy := if t_y_min > t_min_x then t_y_min else t_min_x
    let t_max_xy := if t_y_max < t_max_x then t_y_max else t_max_x
    let t_z_min := ((self.bounds ray.signZ).z - ray.origin.z) * ray.invert_direction.z
    let t_z_max := ((self.bounds (!ray.signZ)).z - ray.origin.z) * ray.invert_direction.z
    if t_min_xy > t_z_max ∨ t_z_min > t_max_xy then false
    else
      let t_min_xyz := if t_z_min > t_min_xy then t_z_min else t_min_xy
      let t_max_xyz := if t_z_max < t_max_xy then t_z_max else t_max_xy
      decide (t_min_xyz < t_max ∧ t_max_xyz > t_min)

/-- `calc_surrounding_box` (src/bounding_boxes/utils.rs). -/
noncomputable def calc_surrounding_box (box_1 box_2 : AxisAlignedBoundingBox) :
    AxisAlignedBoundingBox :=
  { min_bound := ⟨min box_1.min_bound.x box_2.min_bound.x,
                  min box_1.min_bound.y box_2.min_bound.y,
                  min box_1.min_bound.z box_2.min_bound.z⟩
    max_bound := ⟨max box_1.max_bound.x box_2.max_bound.x,
                  max box_1.max_bound.y box_2.max_bound.y,
                  max box_1.max_bound.z box_2.max_bound.z⟩ }

/-- `atan2`, the two-argument arctangent, used only by the spec-modelled
`get_sphere_uv` below. -/
noncomputable def atan2 (y x : ℝ) : ℝ :=
  if 0 < x then Real.arctan (y / x)
  else if x < 0 ∧ 0 ≤ y then Real.arctan (y / x) + Real.pi
  else if x < 0 then Real.arctan (y / x) - Real.pi
  else if 0 < y then Real.pi / 2
  else if y < 0 then -(Real.pi / 2)
  else 0

/-- Modelled from the spec: `get_sphere_uv` is called by `Sphere::hit`
(src/hitable/sphere.rs line 32) but its definition is not present under
src/; per the spec, `(u, v)` is "a spherical-to-UV mapping (polar angle /
azimuth normalized to [0,1])" of the unit normal. -/
noncomputable def get_sphere_uv (p : Vec3) : ℝ × ℝ :=
  (1 - (atan2 p.z p.x + Real.pi) / (2 * Real.pi),
   (Real.arcsin p.y + Real.pi / 2) / Real.pi)

/-- `reflect` (src/hitable/utils.rs). -/
noncomputable def reflect (dir norm : Vec3) : Vec3 :=
  dir - (2 * dot dir norm) * norm

open Classical in
/-- `refract` (src/hitable/utils.rs). -/
noncomputable def refract (dir norm : Vec3) (ni_over_nt : ℝ) : Option Vec3 :=
  let unit_vec := unit_vector dir
  let dt := dot unit_vec norm
  let discriminant := 1 - ni_over_nt * ni_over_nt * (1 - dt * dt)
  if discriminant > 0 then
    some (ni_over_nt * (unit_vec - norm * dt) - norm * Real.sqrt discriminant)
  else
    none

/-- `schlick_approx` (src/hitable/utils.rs). -/
noncomputable def schlick_approx (cosine refractive_index : ℝ) : ℝ :=
  let r0 := (1 - refractive_index) / (1 + refractive_index)
  let r0 := r0 * r0
  r0 + (1 - r0) * (1 - cosine) ^ 5

/-- The truncating `as i32` cast of Rust (rounds toward zero), used by
`ImageTexture::value`. -/
noncomputable def rust_trunc (x : ℝ) : ℤ :=
  if 0 ≤ x then ⌊x⌋ else -⌊-x⌋

/-- `Texture` (src/texture/texture.rs) with its variants
(src/texture/textures.rs).  The `noise` variant carries the
`Perlin::turbulance` evaluation as a function argument: the Perlin object is
built from randomly generated permutation tables, so every concrete table
corresponds to one such function. -/
inductive Texture where
  | constant (color : Vec3)
  | checker (even odd : Texture)
  | noise (turbulance : Vec3 → ℕ → ℝ → ℝ) (frequency : ℝ) (octaves : ℕ)
  | image (data : ℕ → ℕ) (num_x num_y : ℕ)

open Classical in
/-- `Texture::value` for each variant (src/texture/textures.rs). -/
noncomputable def Texture.value : Texture → ℝ → ℝ → Vec3 → Vec3
  | .constant color, _, _, _ => color
  | .checker even odd, u, v, hit_point =>
      let sines := Real.sin (10 * hit_point.x) * Real.sin (10 * hit_point.y) *
        Real.sin (10 * hit_point.z)
      if sines < 0 then odd.value u v hit_point else even.value u v hit_point
  | .noise turbulance frequency octaves, _, _, hit_point =>
      let sine := Real.sin (frequency * hit_point.x +
        5 * |turbulance (hit_point * frequency) octaves 1|)
      (Vec3.mk 1 1 1) * ((0.5 : ℝ) * (1 + sine))
  | .image data num_x num_y, u, v, _ =>
      let i0 := rust_trunc (u * (num_x : ℝ))
      let j0 := rust_trunc ((1 - v) * (num_y : ℝ) - 0.0001)
      let i := if i0 < 0 then 0 else if i0 > (num_x : ℤ) - 1 then (num_x : ℤ) - 1 else i0
      let j := if j0 < 0 then 0 else if j0 > (num_y : ℤ) - 1 then (num_y : ℤ) - 1 else j0
      let idx := (3 * i + 3 * (num_x : ℤ) * j).toNat
      ⟨(data idx : ℝ) / 255, (data (idx + 1) : ℝ) / 255, (data (idx + 2) : ℝ) / 255⟩

/-- `Material` (src/material/material.rs) with its variants
(src/material/materials.rs). -/
inductive Material where
  | lambertian (albedo : Texture)
  | metal (albedo emittance_albedo : Texture) (fuzziness : ℝ)
  | dielectric (refractive_index : ℝ)
  | diffuseLight (texture : Texture)
  | isotropic (albedo : Texture)
  | glossy (albedo specular_albedo emittance_albedo : Texture)
      (glossiness refractive_index : ℝ)

/-- `HitRecord` (src/hitable/hit_record.rs). -/
structure HitRecord where
  t : ℝ
  hit_point : Vec3
  normal : Vec3
  material : Option Material
  u : ℝ
  v : ℝ

/-- `HitRecord::new` (src/hitable/hit_record.rs). -/
noncomputable def HitRecord.new : HitRecord :=
  { t := -1
    hit_point := ⟨0, 0, 0⟩
    normal := ⟨0, 0, 0⟩
    material := none
    u := 0
    v := 0 }

/-- `HitRecord::from` (src/hitable/hit_record.rs): updates `self` with the
values of `other`, taking the material out of `other`
(`other.material.take()`).  Both resulting records are returned:
first the updated destination, then the drained source. -/
def HitRecord.update_from (_self other : HitRecord) : HitRecord × HitRecord :=
  ({ t := other.t
     hit_point := other.hit_point
     normal := other.normal
     material := other.material
     u := other.u
     v := other.v },
   { other with material := none })

/-- The values consumed from the thread-local random generator during one
`Material::scatter` call: the result of `random_point_in_unit_sphere`
(src/hitable/utils.rs, always of squared length below 1) and one uniform
draw from [0, 1]. -/
structure RandSample where
  unit_sphere_point : Vec3
  uniform : ℝ

open Classical in
/-- `Material::scatter` for each variant (src/material/materials.rs), with
the random draws passed explicitly as `rnd`. -/
noncomputable def Material.scatter (self : Material) (rnd : RandSample)
    (input_ray : Ray) (hit_record : HitRecord) : Ray × Vec3 × Bool :=
  match self with
  | .lambertian albedo =>
      let target := hit_record.hit_point + hit_record.normal + rnd.unit_sphere_point
      let scattered_ray := Ray.new hit_record.hit_point
        (target - hit_record.hit_point) input_ray.time
      let attenuation := albedo.value hit_record.u hit_record.v hit_record.hit_point
      (scattered_ray, attenuation, true)
  | .metal albedo _ fuzziness =>
      let scattered_ray := Ray.new hit_record.hit_point
        (reflect (unit_vector input_ray.direction) hit_record.normal +
          fuzziness * rnd.unit_sphere_point) input_ray.time
      let attenuation := albedo.value hit_record.u hit_record.v hit_record.hit_point
      let did_scatter := decide (dot scattered_ray.direction hit_record.normal > 0)
      (scattered_ray, attenuation, did_scatter)
  | .dielectric refractive_index =>
      let attenuation := Vec3.mk 1 1 1
      let dot_prod := dot input_ray.direction hit_record.normal
      let p : Vec3 × ℝ × ℝ :=
        if dot_prod > 0 then
          (-hit_record.normal, refractive_index,
            refractive_index * dot_prod / input_ray.direction.length)
        else
          (hit_record.normal, 1 / refractive_index,
            -dot_prod / input_ray.direction.length)
      let q : Vec3 × ℝ :=
        match refract input_ray.direction p.1 p.2.1 with
        | some refracted => (refracted, schlick_approx p.2.2 refractive_index)
        | none => (Vec3.mk 0 0 0, 1)
      let scattered_ray :=
        if rnd.uniform ≤ q.2 then
          Ray.new hit_record.hit_point
            (reflect input_ray.direction hit_record.normal) input_ray.time
        else
          Ray.new hit_record.hit_point q.1 input_ray.time
      (scattered_ray, attenuation, true)
  | .diffuseLight _ =>
      let blank_ray := Ray.new input_ray.direction input_ray.origin 0
      (blank_ray, Vec3.mk 0 0 0, false)
  | .isotropic albedo =>
      let scattered_ray := Ray.new hit_record.hit_point rnd.unit_sphere_point
        input_ray.time
      let attenuation := albedo.value hit_record.u hit_record.v hit_record.hit_point
      (scattered_ray, attenuation, true)
  | .glossy albedo specular_albedo _ glossiness refractive_index =>
      let p : Ray × Vec3 :=
        if rnd.uniform ≤ schlick_approx
            (-(dot (unit_vector input_ray.direction) hit_record.normal))
            refractive_index then
          (Ray.new hit_record.hit_point
            (reflect (unit_vector input_ray.direction) hit_record.normal +
              glossiness * rnd.unit_sphere_point) input_ray.time,
           specular_albedo.value hit_record.u hit_record.v hit_record.hit_point)
        else
          (Ray.new hit_record.hit_point
            (hit_record.hit_point + hit_record.normal + rnd.unit_sphere_point -
              hit_record.hit_point) input_ray.time,
           albedo.value hit_record.u hit_record.v hit_record.hit_point)
      (p.1, p.2, decide (dot p.1.direction hit_record.normal > 0))

/-- `Material::emit`: overridden by `Metal`, `DiffuseLight` and `Glossy`
(src/material/materials.rs); the trait default returns black
(src/material/material.rs). -/
noncomputable def Material.emit (self : Material) (u v : ℝ) (hit_point : Vec3) : Vec3 :=
  match self with
  | .metal _ emittance_albedo _ => emittance_albedo.value u v hit_point
  | .diffuseLight texture => texture.value u v hit_point
  | .glossy _ _ emittance_albedo _ _ => emittance_albedo.value u v hit_point
  | _ => Vec3.mk 0 0 0

/-- The `Hitable` trait objects (src/hitable/hitable.rs) relevant to the
claims: `Sphere` (src/hitable/sphere.rs), `XYRect`
(src/hitable/rectangles.rs), `FlipNormals` (src/hitable/flip_normals.rs),
`HitableList` (src/hitable/hitable_list.rs) and `BvhNode`
(src/hitable/bvh_node.rs, with its cached bounding box). -/
inductive Hitable where
  | sphere (center : Vec3) (radius : ℝ) (material : Material)
  | xyRect (material : Material) (x_0 x_1 y_0 y_1 k : ℝ)
  | flipNormals (hitable : Hitable)
  | hitableList (list : List Hitable)
  | bvhNode (left right : Hitable) (bounding_box : AxisAlignedBoundingBox)

open Classical in
/-- `Sphere::hit` (src/hitable/sphere.rs).  A successful hit is returned as
`some record` (the source writes the record through `&mut` and returns
`true`; every field of the record is written on success and nothing on
failure). -/
noncomputable def sphere_hit (center : Vec3) (radius : ℝ) (material : Material)
    (ray : Ray) (t_min t_max : ℝ) : Option HitRecord :=
  let oc := ray.origin - center
  let a := dot ray.direction ray.direction
  let b := dot oc ray.direction
  let c := dot oc oc - radius * radius
  let discriminant := b * b - a * c
  if discriminant > 0 then
    let temp := (-b - Real.sqrt discriminant) / a
    if temp < t_max ∧ temp > t_min then
      let hit_point := ray.point_at_param temp
      let normal := (hit_point - center) / radius
      some { t := temp, hit_point := hit_point, normal := normal,
             material := some material,
             u := (get_sphere_uv normal).1, v := (get_sphere_uv normal).2 }
    else
      let temp := (-b + Real.sqrt discriminant) / a
      if temp < t_max ∧ temp > t_min then
        let hit_point := ray.point_at_param temp
        let normal := (hit_point - center) / radius
        some { t := temp, hit_point := hit_point, normal := normal,
               material := some material,
               u := (get_sphere_uv normal).1, v := (get_sphere_uv normal).2 }
      else none
  else none

open Classical in
/-- `XYRect::hit` (src/hitable/rectangles.rs). -/
noncomputable def xy_rect_hit (material : Material) (x_0 x_1 y_0 y_1 k : ℝ)
    (ray : Ray) (t_min t_max : ℝ) : Option HitRecord :=
  let t := (k - ray.origin.z) / ray.direction.z
  if t < t_min ∨ t > t_max then none
  else
    let x := ray.origin.x + t * ray.direction.x
    let y := ray.origin.y + t * ray.direction.y
    if x < x_0 ∨ x > x_1 ∨ y < y_0 ∨ y > y_1 then none
    else
      some { t := t, hit_point := ray.point_at_param t,
             normal := ⟨0, 0, 1⟩, material := some material,
             u := (x - x_0) / (x_1 - x_0), v := (y - y_0) / (y_1 - y_0) }

open Classical

mutual

/-- `Hitable::hit` dispatched over the variants: `Sphere::hit`,
`XYRect::hit`, `FlipNormals::hit` (negates the inner record's normal),
`HitableList::hit` (via `hitable_list_hit_fold` below) and `BvhNode::hit`
(box-pruned query of both children over the same interval, keeping the
record of smaller `t`, via `HitRecord::from`). -/
noncomputable def Hitable.hit : Hitable → Ray → ℝ → ℝ → Option HitRecord
  | .sphere center radius material, ray, t_min, t_max =>
      sphere_hit center radius material ray t_min t_max
  | .xyRect material x_0 x_1 y_0 y_1 k, ray, t_min, t_max =>
      xy_rect_hit material x_0 x_1 y_0 y_1 k ray t_min t_max
  | .flipNormals hitable, ray, t_min, t_max =>
      match Hitable.hit hitable ray t_min t_max with
      | some rec => some { rec with normal := -rec.normal }
      | none => none
  | .hitableList list, ray, t_min, t_max =>
      hitable_list_hit_fold list ray t_min t_max none
  | .bvhNode left right bounding_box, ray, t_min, t_max =>
      if bounding_box.hit ray t_min t_max then
        match Hitable.hit left ray t_min t_max, Hitable.hit right ray t_min t_max with
        | some left_rec, some right_rec =>
            if left_rec.t < right_rec.t then some left_rec else some right_rec
        | some left_rec, none => some left_rec
        | none, some right_rec => some right_rec
        | none, none => none
      else none

/-- The loop of `HitableList::hit` (src/hitable/hitable_list.rs): iterate
over the objects, narrowing `current_closest` to the `t` of each successful
hit; the last successful record is the result. -/
noncomputable def hitable_list_hit_fold :
    List Hitable → Ray → ℝ → ℝ → Option HitRecord → Option HitRecord
  | [], _, _, _, best => best
  | obj :: rest, ray, t_min, current_closest, best =>
      match Hitable.hit obj ray t_min current_closest with
      | some rec => hitable_list_hit_fold rest ray t_min rec.t (some rec)
      | none => hitable_list_hit_fold rest ray t_min current_closest best

end

mutual

/-- `Hitable::bounding_box` dispatched over the variants (the time window
arguments are ignored by all of these variants, as in the source). -/
noncomputable def Hitable.bounding_box :
    Hitable → ℝ → ℝ → Option AxisAlignedBoundingBox
  | .sphere center radius _, _, _ =>
      some ⟨center - radius, center + radius⟩
  | .xyRect _ x_0 x_1 y_0 y_1 k, _, _ =>
      some ⟨⟨x_0, y_0, k - 0.0001⟩, ⟨x_1, y_1, k + 0.0001⟩⟩
  | .flipNormals hitable, start_time, end_time =>
      hitable.bounding_box start_time end_time
  | .hitableList list, start_time, end_time =>
      match list with
      | [] => none
      | x :: rest =>
          hitable_list_box_fold rest start_time end_time
            (x.bounding_box start_time end_time)
  | .bvhNode _ _ bounding_box, _, _ => some bounding_box

/-- The loop of `HitableList::bounding_box`: folds `calc_surrounding_box`
over the children, giving up (`none`) as soon as a child has no box. -/
noncomputable def hitable_list_box_fold :
    List Hitable → ℝ → ℝ → Option AxisAlignedBoundingBox →
      Option AxisAlignedBoundingBox
  | _, _, _, none => none
  | [], _, _, some acc => some acc
  | x :: rest, start_time, end_time, some acc =>
      match x.bounding_box start_time end_time with
      | some temp_box =>
          hitable_list_box_fold rest start_time end_time
            (some (calc_surrounding_box acc temp_box))
      | none => none

end

/-- The sort key of `BvhNode::new`: the chosen axis component of the
element's `bounding_box(0.0, 0.0)` min corner.  The source unwraps the
`Option` with `expect` (a panic when absent); the default value 0 here is
never reached for the box-carrying variants above. -/
noncomputable def bvh_sort_key (axis : Fin 3) (h : Hitable) : ℝ :=
  match h.bounding_box 0 0 with
  | some b =>
      match axis with
      | 0 => b.min_bound.x
      | 1 => b.min_bound.y
      | 2 => b.min_bound.z
  | none => 0

/-- Insertion of one element into a list sorted by `bvh_sort_key`. -/
noncomputable def bvh_sort_insert (axis : Fin 3) (h : Hitable) :
    List Hitable → List Hitable
  | [] => [h]
  | x :: rest =>
      if bvh_sort_key axis h ≤ bvh_sort_key axis x then h :: x :: rest
      else x :: bvh_sort_insert axis h rest

/-- The `sort_by` call of `BvhNode::new`, modelled as a stable insertion
sort on the per-axis key. -/
noncomputable def bvh_sort (axis : Fin 3) : List Hitable → List Hitable
  | [] => []
  | x :: rest => bvh_sort_insert axis x (bvh_sort axis rest)

/-- `BvhNode::new` (src/hitable/bvh_node.rs).  The random axis drawn from
`thread_rng` at each recursive call is supplied by the oracle `axis_choice`,
indexed by the path from the root (`false` = left child); `fuel` bounds the
recursion depth, `none` meaning that no node was produced within that bound
(the source recurses without any bound), or that a child had no bounding
box (where the source panics through `expect`). -/
noncomputable def bvh_node_new (axis_choice : List Bool → Fin 3)
    (start_time end_time : ℝ) :
    ℕ → List Bool → List Hitable → Option Hitable
  | 0, _, _ => none
  | fuel + 1, path, hitable_list =>
      let sorted := bvh_sort (axis_choice path) hitable_list
      let children : Option (Hitable × Hitable) :=
        match sorted with
        | [a] => some (a, a)
        | [a, b] => some (a, b)
        | _ =>
            let left_list := sorted.take (sorted.length / 2)
            let right_list := sorted.drop (sorted.length / 2)
            match bvh_node_new axis_choice start_time end_time fuel
                (path ++ [false]) left_list,
              bvh_node_new axis_choice start_time end_time fuel
                (path ++ [true]) right_list with
            | some l, some r => some (l, r)
            | _, _ => none
      match children with
      | some (left, right) =>
          match left.bounding_box start_time end_time,
            right.bounding_box start_time end_time with
          | some left_box, some right_box =>
              some (.bvhNode left right (calc_surrounding_box left_box right_box))
          | _, _ => none
      | none => none

/-- `MAX_DEPTH` (src/main.rs line 45). -/
def MAX_DEPTH : ℤ := 10

/-- `std::f64::MAX`, the largest finite `f64`, used by `get_color` as the
upper bound of the nearest-hit query. -/
noncomputable def FLOAT_MAX : ℝ := 2 ^ 1024 - 2 ^ 971

/-- The destructuring bind of `get_color` (src/main.rs lines 51-64): the
scattering result and the emitted light, from the record's material when it
has one, else a throwaway ray, black attenuation and `did_scatter = false`. -/
noncomputable def scatter_and_emit (mat_opt : Option Material) (rnd : RandSample)
    (ray : Ray) (rec : HitRecord) : (Ray × Vec3 × Bool) × Vec3 :=
  match mat_opt with
  | some mat => (mat.scatter rnd ray rec, mat.emit rec.u rec.v rec.hit_point)
  | none =>
      ((Ray.new ray.origin ray.direction 0, Vec3.mk 0 0 0, false), Vec3.mk 0 0 0)

/-- `get_color` (src/main.rs lines 45-74): the recursive radiance
computation.  The per-bounce random draws are supplied by the stream
`draws`, indexed by the recursion depth. -/
noncomputable def get_color (draws : ℕ → RandSample) (ray : Ray)
    (world : Hitable) (depth : ℤ) : Vec3 :=
  match Hitable.hit world ray 0.00001 FLOAT_MAX with
  | some rec =>
      if depth < MAX_DEPTH ∧
          (scatter_and_emit rec.material (draws depth.toNat) ray rec).1.2.2 = true then
        (scatter_and_emit rec.material (draws depth.toNat) ray rec).2 +
          (scatter_and_emit rec.material (draws depth.toNat) ray rec).1.2.1 *
            get_color draws
              (scatter_and_emit rec.material (draws depth.toNat) ray rec).1.1
              world (depth + 1)
      else (scatter_and_emit rec.material (draws depth.toNat) ray rec).2
  | none => Vec3.mk 0 0 0
termination_by (MAX_DEPTH + 1 - depth).toNat
decreasing_by
  simp only [MAX_DEPTH] at *
  omega

/-- The number of scene hit evaluations performed by `get_color`
(src/main.rs lines 45-74): one per call, plus those of the recursive call
when one is made. -/
noncomputable def get_color_hit_count (draws : ℕ → RandSample) (ray : Ray)
    (world : Hitable) (depth : ℤ) : ℕ :=
  match Hitable.hit world ray 0.00001 FLOAT_MAX with
  | some rec =>
      if depth < MAX_DEPTH ∧
          (scatter_and_emit rec.material (draws depth.toNat) ray rec).1.2.2 = true then
        1 + get_color_hit_count draws
          (scatter_and_emit rec.material (draws depth.toNat) ray rec).1.1
          world (depth + 1)
      else 1
  | none => 1
termination_by (MAX_DEPTH + 1 - depth).toNat
decreasing_by
  simp only [MAX_DEPTH] at *
  omega

/-- Follows the spec, section 4.1 (not the source): the plain narrowing
slab test.  Per axis, `t0, t1 = (bound_low - origin)/direction,
(bound_high - origin)/direction`, swapped when the direction component is
negative; the running interval starts at `[t_min, t_max]` and is narrowed
by `t_min = max(t_min, t0)`, `t_max = min(t_max, t1)`; if `t_max <= t_min`
at any axis the result is false, and true after all three axes. -/
noncomputable def spec_slab_hit (box : AxisAlignedBoundingBox) (ray : Ray)
    (t_min t_max : ℝ) : Bool :=
  let t0x := (box.min_bound.x - ray.origin.x) / ray.direction.x
  let t1x := (box.max_bound.x - ray.origin.x) / ray.direction.x
  let lo_x := if ray.direction.x < 0 then t1x else t0x
  let hi_x := if ray.direction.x < 0 then t0x else t1x
  let t_min_1 := max t_min lo_x
  let t_max_1 := min t_max hi_x
  if t_max_1 ≤ t_min_1 then false
  else
    let t0y := (box.min_bound.y - ray.origin.y) / ray.direction.y
    let t1y := (box.max_bound.y - ray.origin.y) / ray.direction.y
    let lo_y := if ray.direction.y < 0 then t1y else t0y
    let hi_y := if ray.direction.y < 0 then t0y else t1y
    let t_min_2 := max t_min_1 lo_y
    let t_max_2 := min t_max_1 hi_y
    if t_max_2 ≤ t_min_2 then false
    else
      let t0z := (box.min_bound.z - ray.origin.z) / ray.direction.z
      let t1z := (box.max_bound.z - ray.origin.z) / ray.direction.z
      let lo_z := if ray.direction.z < 0 then t1z else t0z
      let hi_z := if ray.direction.z < 0 then t0z else t1z
      let t_min_3 := max t_min_2 lo_z
      let t_max_3 := min t_max_2 hi_z
      if t_max_3 ≤ t_min_3 then false else true

/-- Well-formed scenes for the BVH/list equivalence: trees whose leaf
primitives are spheres of positive radius (possibly wrapped in
`FlipNormals` or grouped in a `HitableList`), and whose `BvhNode`s carry
the cached box computed by `BvhNode::new` (the surrounding box of the two
children's boxes, which all these variants report independently of the
time window). -/
inductive GoodTree : Hitable → Prop
  | sphere (center : Vec3) (radius : ℝ) (material : Material)
      (hr : 0 < radius) : GoodTree (.sphere center radius material)
  | flip (hitable : Hitable) (h : GoodTree hitable) :
      GoodTree (.flipNormals hitable)
  | list (xs : List Hitable) (h : ∀ x ∈ xs, GoodTree x) :
      GoodTree (.hitableList xs)
  | node (left right : Hitable) (left_box right_box : AxisAlignedBoundingBox)
      (hl : GoodTree left) (hr : GoodTree right)
      (hlb : left.bounding_box 0 0 = some left_box)
      (hrb : right.bounding_box 0 0 = some right_box) :
      GoodTree (.bvhNode left right (calc_surrounding_box left_box right_box))

/-- The elements a BVH was built over: the `bvhNode` constructors are
flattened, every other variant is an element of the original
`HitableList`. -/
def bvh_leaves : Hitable → List Hitable
  | .bvhNode left right _ => bvh_leaves left ++ bvh_leaves right
  | h => [h]

/-- IEEE-754 double values for the claims that are specifically about
non-finite float behavior: finite values are idealized as exact rationals,
plus the two infinities and NaN. -/
inductive FP where
  | num (q : ℚ)
  | pinf
  | ninf
  | nan
deriving DecidableEq

/-- IEEE `<`: any comparison with NaN is false. -/
def FP.lt : FP → FP → Bool
  | .num a, .num b => decide (a < b)
  | .num _, .pinf => true
  | .ninf, .num _ => true
  | .ninf, .pinf => true
  | _, _ => false

/-- IEEE `>`: `a > b` is `b < a`. -/
def FP.gt (a b : FP) : Bool := FP.lt b a

/-- IEEE negation. -/
def FP.neg : FP → FP
  | .num a => .num (-a)
  | .pinf => .ninf
  | .ninf => .pinf
  | .nan => .nan

/-- IEEE addition (exact on finite values; `∞ + -∞ = NaN`). -/
def FP.add : FP → FP → FP
  | .num a, .num b => .num (a + b)
  | .nan, _ => .nan
  | _, .nan => .nan
  | .pinf, .ninf => .nan
  | .ninf, .pinf => .nan
  | .pinf, _ => .pinf
  | _, .pinf => .pinf
  | .ninf, _ => .ninf
  | _, .ninf => .ninf

/-- IEEE subtraction: `a - b = a + (-b)`. -/
def FP.sub (a b : FP) : FP := a.add b.neg

/-- IEEE multiplication (exact on finite values; `0 × ∞ = NaN`). -/
def FP.mul : FP → FP → FP
  | .num a, .num b => .num (a * b)
  | .nan, _ => .nan
  | _, .nan => .nan
  | .pinf, .pinf => .pinf
  | .pinf, .ninf => .ninf
  | .ninf, .pinf => .ninf
  | .ninf, .ninf => .pinf
  | .pinf, .num b => if 0 < b then .pinf else if b < 0 then .ninf else .nan
  | .ninf, .num b => if 0 < b then .ninf else if b < 0 then .pinf else .nan
  | .num a, .pinf => if 0 < a then .pinf else if a < 0 then .ninf else .nan
  | .num a, .ninf => if 0 < a then .ninf else if a < 0 then .pinf else .nan

/-- IEEE division (exact on finite values; `x/0` is a signed infinity for
`x ≠ 0` and `0/0 = NaN`; signed zeroes are not distinguished, which is
irrelevant to the inputs considered here). -/
def FP.div : FP → FP → FP
  | .num a, .num b =>
      if b = 0 then (if 0 < a then .pinf else if a < 0 then .ninf else .nan)
      else .num (a / b)
  | .nan, _ => .nan
  | _, .nan => .nan
  | .pinf, .pinf => .nan
  | .pinf, .ninf => .nan
  | .ninf, .pinf => .nan
  | .ninf, .ninf => .nan
  | .pinf, .num b => if b < 0 then .ninf else .pinf
  | .ninf, .num b => if b < 0 then .pinf else .ninf
  | .num _, _ => .num 0

/-- A vector of IEEE doubles. -/
structure FpVec3 where
  x : FP
  y : FP
  z : FP
deriving DecidableEq

/-- The fields of `Ray` read by `XYRect::hit` / `XZRect::hit`, over IEEE
doubles. -/
structure FpRay where
  origin : FpVec3
  direction : FpVec3

/-- The hit record fields written by the rectangle hit tests, over IEEE
doubles.  The material handle is an opaque identifier: its contents are
irrelevant to the float analysis. -/
structure FpHitRecord where
  t : FP
  hit_point : FpVec3
  normal : FpVec3
  material : Option ℕ
  u : FP
  v : FP
deriving DecidableEq

/-- `XYRect::hit` (src/hitable/rectangles.rs) over IEEE doubles, mirroring
the source line by line: `t = (k - origin.z)/direction.z`, rejection when
`t < t_min || t > t_max`, in-plane rejection when
`x < x_0 || x > x_1 || y < y_0 || y > y_1`, and otherwise a record with
`t`, the point at `t`, normal `(0,0,1)` and interpolated `(u, v)`. -/
def fp_xy_rect_hit (material : ℕ) (x_0 x_1 y_0 y_1 k : ℚ) (ray : FpRay)
    (t_min t_max : FP) : Option FpHitRecord :=
  let t := (FP.sub (.num k) ray.origin.z).div ray.direction.z
  if t.lt t_min || t.gt t_max then none
  else
    let x := ray.origin.x.add (t.mul ray.direction.x)
    let y := ray.origin.y.add (t.mul ray.direction.y)
    if x.lt (.num x_0) || x.gt (.num x_1) || y.lt (.num y_0) || y.gt (.num y_1) then
      none
    else
      some { t := t
             hit_point := ⟨ray.origin.x.add (t.mul ray.direction.x),
                           ray.origin.y.add (t.mul ray.direction.y),
                           ray.origin.z.add (t.mul ray.direction.z)⟩
             normal := ⟨.num 0, .num 0, .num 1⟩
             material := some material
             u := (x.sub (.num x_0)).div ((FP.num x_1).sub (.num x_0))
             v := (y.sub (.num y_0)).div ((FP.num y_1).sub (.num y_0)) }

/-- `XZRect::hit` (src/hitable/rectangles.rs) over IEEE doubles: the plane
is `y = k`, the in-plane coordinates are `x` and `z`, the normal is
`(0,1,0)`. -/
def fp_xz_rect_hit (material : ℕ) (x_0 x_1 z_0 z_1 k : ℚ) (ray : FpRay)
    (t_min t_max : FP) : Option FpHitRecord :=
  let t := (FP.sub (.num k) ray.origin.y).div ray.direction.y
  if t.lt t_min || t.gt t_max then none
  else
    let x := ray.origin.x.add (t.mul ray.direction.x)
    let z := ray.origin.z.add (t.mul ray.direction.z)
    if x.lt (.num x_0) || x.gt (.num x_1) || z.lt (.num z_0) || z.gt (.num z_1) then
      none
    else
      some { t := t
             hit_point := ⟨ray.origin.x.add (t.mul ray.direction.x),
                           ray.origin.y.add (t.mul ray.direction.y),
                           ray.origin.z.add (t.mul ray.direction.z)⟩
             normal := ⟨.num 0, .num 1, .num 0⟩
             material := some material
             u := (x.sub (.num x_0)).div ((FP.num x_1).sub (.num x_0))
             v := (z.sub (.num z_0)).div ((FP.num z_1).sub (.num z_0)) }

/-- The textures appearing in the scenes of src/main.rs: constant colors
with non-negative components, checkers of such, noise and image textures
(whose values are non-negative by construction). -/
def texture_nonneg : Texture → Prop
  | .constant color => 0 ≤ color.x ∧ 0 ≤ color.y ∧ 0 ≤ color.z
  | .checker even odd => texture_nonneg even ∧ texture_nonneg odd
  | .noise _ _ _ => True
  | .image _ _ _ => True

/-- Materials built from non-negative textures. -/
def material_nonneg : Material → Prop
  | .lambertian albedo => texture_nonneg albedo
  | .metal albedo emittance_albedo _ =>
      texture_nonneg albedo ∧ texture_nonneg emittance_albedo
  | .dielectric _ => True
  | .diffuseLight texture => texture_nonneg texture
  | .isotropic albedo => texture_nonneg albedo
  | .glossy albedo specular_albedo emittance_albedo _ _ =>
      texture_nonneg albedo ∧ texture_nonneg specular_albedo ∧
        texture_nonneg emittance_albedo

/-- Scenes all of whose materials are built from non-negative textures. -/
inductive world_materials_nonneg : Hitable → Prop
  | sphere (center : Vec3) (radius : ℝ) (material : Material)
      (h : material_nonneg material) :
      world_materials_nonneg (.sphere center radius material)
  | xyRect (material : Material) (x_0 x_1 y_0 y_1 k : ℝ)
      (h : material_nonneg material) :
      world_materials_nonneg (.xyRect material x_0 x_1 y_0 y_1 k)
  | flip (hitable : Hitable) (h : world_materials_nonneg hitable) :
      world_materials_nonneg (.flipNormals hitable)
  | list (xs : List Hitable) (h : ∀ x ∈ xs, world_materials_nonneg x) :
      world_materials_nonneg (.hitableList xs)
  | node (left right : Hitable) (bounding_box : AxisAlignedBoundingBox)
      (hl : world_materials_nonneg left) (hr : world_materials_nonneg right) :
      world_materials_nonneg (.bvhNode left right bounding_box)

/-- The lower end of one axis slab: the smaller of the two plane crossings. -/
noncomputable def slab_lo (lo hi o d : ℝ) : ℝ := min ((lo - o) / d) ((hi - o) / d)

/-- The upper end of one axis slab: the larger of the two plane crossings. -/
noncomputable def slab_hi (lo hi o d : ℝ) : ℝ := max ((lo - o) / d) ((hi - o) / d)

/-- The entry parameter of a ray `(o, d)` into a box: the largest per-axis
slab lower end. -/
noncomputable def box_entry (box : AxisAlignedBoundingBox) (o d : Vec3) : ℝ :=
  max (max (slab_lo box.min_bound.x box.max_bound.x o.x d.x)
           (slab_lo box.min_bound.y box.max_bound.y o.y d.y))
      (slab_lo box.min_bound.z box.max_bound.z o.z d.z)

/-- The exit parameter of a ray `(o, d)` out of a box: the smallest per-axis
slab upper end. -/
noncomputable def box_exit (box : AxisAlignedBoundingBox) (o d : Vec3) : ℝ :=
  min (min (slab_hi box.min_bound.x box.max_bound.x o.x d.x)
           (slab_hi box.min_bound.y box.max_bound.y o.y d.y))
      (slab_hi box.min_bound.z box.max_bound.z o.z d.z)

/-- Componentwise box validity: each min coordinate at most the max. -/
def box_valid (box : AxisAlignedBoundingBox) : Prop :=
  box.min_bound.x ≤ box.max_bound.x ∧ box.min_bound.y ≤ box.max_bound.y ∧
    box.min_bound.z ≤ box.max_bound.z

/-- A point lies (weakly) inside a box. -/
def in_box (p : Vec3) (box : AxisAlignedBoundingBox) : Prop :=
  box.min_bound.x ≤ p.x ∧ p.x ≤ box.max_bound.x ∧
  box.min_bound.y ≤ p.y ∧ p.y ≤ box.max_bound.y ∧
  box.min_bound.z ≤ p.z ∧ p.z ≤ box.max_bound.z

/-- The minimum of two optional hit parameters, `none` acting as `+∞`. -/
noncomputable def opt_min_t : Option ℝ → Option ℝ → Option ℝ
  | none, b => b
  | some a, none => some a
  | some a, some b => some (min a b)

/-- The least of the candidate hit parameters `ts` lying strictly inside
`(t_min, t_max)`, if any. -/
noncomputable def list_opt_min (ts : List ℝ) (t_min t_max : ℝ) : Option ℝ :=
  ts.foldr
    (fun t acc => if t_min < t ∧ t < t_max then opt_min_t (some t) acc else acc)
    none

/-- A hitable is characterized by a list of candidate hit parameters when,
over every query interval, its hit parameter is the least candidate strictly
inside the interval. -/
def hit_char (R : Ray) (T : Hitable) (ts : List ℝ) : Prop :=
  ∀ a b, Option.map HitRecord.t (Hitable.hit T R a b) = list_opt_min ts a b

/-- Analysis abbreviation: the discriminant `b*b - a*c` computed by
`Sphere::hit` for a ray with origin `o` and direction `d`. -/
noncomputable def sphere_disc (center : Vec3) (radius : ℝ) (o d : Vec3) : ℝ :=
  dot (o - center) d * dot (o - center) d -
    dot d d * (dot (o - center) (o - center) - radius * radius)

/-- Analysis abbreviation: the first quadratic root tried by `Sphere::hit`. -/
noncomputable def sphere_root1 (center : Vec3) (radius : ℝ) (o d : Vec3) : ℝ :=
  (-dot (o - center) d - Real.sqrt (sphere_disc center radius o d)) / dot d d

/-- Analysis abbreviation: the second quadratic root tried by `Sphere::hit`. -/
noncomputable def sphere_root2 (center : Vec3) (radius : ℝ) (o d : Vec3) : ℝ :=
  (-dot (o - center) d + Real.sqrt (sphere_disc center radius o d)) / dot d d

/-- The candidate hit parameters of a sphere: both quadratic roots when the
discriminant is positive, none otherwise. -/
noncomputable def sphere_roots (center : Vec3) (radius : ℝ) (o d : Vec3) : List ℝ :=
  if 0 < sphere_disc center radius o d then
    [sphere_root1 center radius o d, sphere_root2 center radius o d]
  else []

/-- The first option if present, else the second. -/
def opt_or (x y : Option ℝ) : Option ℝ :=
  match x with
  | some v => some v
  | none => y

/-- A concrete two-sphere BVH (the node `BvhNode::new` builds over two unit
spheres, with its cached surrounding box). -/
noncomputable def demo_bvh_tree : Hitable :=
  .bvhNode
    (.sphere ⟨0, 0, 0⟩ 1 (Material.lambertian (Texture.constant ⟨1/2, 1/2, 1/2⟩)))
    (.sphere ⟨0, 0, 4⟩ 1 (Material.lambertian (Texture.constant ⟨1/2, 1/2, 1/2⟩)))
    (calc_surrounding_box ⟨(⟨0, 0, 0⟩ : Vec3) - (1 : ℝ), (⟨0, 0, 0⟩ : Vec3) + (1 : ℝ)⟩
      ⟨(⟨0, 0, 4⟩ : Vec3) - (1 : ℝ), (⟨0, 0, 4⟩ : Vec3) + (1 : ℝ)⟩)

theorem Vec3.add_x (a b : Vec3) : (a + b).x = a.x + b.x := rfl
theorem Vec3.add_y (a b : Vec3) : (a + b).y = a.y + b.y := rfl
theorem Vec3.add_z (a b : Vec3) : (a + b).z = a.z + b.z := rfl
theorem Vec3.sub_x (a b : Vec3) : (a - b).x = a.x - b.x := rfl
theorem Vec3.sub_y (a b : Vec3) : (a - b).y = a.y - b.y := rfl
theorem Vec3.sub_z (a b : Vec3) : (a - b).z = a.z - b.z := rfl
theorem Vec3.smul_x (c : ℝ) (v : Vec3) : (c * v).x = c * v.x := rfl
theorem Vec3.smul_y (c : ℝ) (v : Vec3) : (c * v).y = c * v.y := rfl
theorem Vec3.smul_z (c : ℝ) (v : Vec3) : (c * v).z = c * v.z := rfl

theorem Vec3.mul_x (a b : Vec3) : (a * b).x = a.x * b.x := rfl
theorem Vec3.mul_y (a b : Vec3) : (a * b).y = a.y * b.y := rfl
theorem Vec3.mul_z (a b : Vec3) : (a * b).z = a.z * b.z := rfl
theorem Vec3.neg_x (a : Vec3) : (-a).x = -a.x := rfl
theorem Vec3.neg_y (a : Vec3) : (-a).y = -a.y := rfl
theorem Vec3.neg_z (a : Vec3) : (-a).z = -a.z := rfl
theorem Vec3.mulc_x (v : Vec3) (c : ℝ) : (v * c).x = c * v.x := rfl
theorem Vec3.mulc_y (v : Vec3) (c : ℝ) : (v * c).y = c * v.y := rfl
theorem Vec3.mulc_z (v : Vec3) (c : ℝ) : (v * c).z = c * v.z := rfl
theorem Vec3.div_x (v : Vec3) (c : ℝ) : (v / c).x = v.x * (1 / c) := rfl
theorem Vec3.div_y (v : Vec3) (c : ℝ) : (v / c).y = v.y * (1 / c) := rfl
theorem Vec3.div_z (v : Vec3) (c : ℝ) : (v / c).z = v.z * (1 / c) := rfl
theorem Vec3.sub_scalar_x (v : Vec3) (c : ℝ) : (v - c).x = v.x - c := rfl
theorem Vec3.sub_scalar_y (v : Vec3) (c : ℝ) : (v - c).y = v.y - c := rfl
theorem Vec3.sub_scalar_z (v : Vec3) (c : ℝ) : (v - c).z = v.z - c := rfl
theorem Vec3.add_scalar_x (v : Vec3) (c : ℝ) : (v + c).x = v.x + c := rfl
theorem Vec3.add_scalar_y (v : Vec3) (c : ℝ) : (v + c).y = v.y + c := rfl
theorem Vec3.add_scalar_z (v : Vec3) (c : ℝ) : (v + c).z = v.z + c := rfl

attribute [simp] Vec3.add_x Vec3.add_y Vec3.add_z Vec3.sub_x Vec3.sub_y Vec3.sub_z
  Vec3.smul_x Vec3.smul_y Vec3.smul_z Vec3.mul_x Vec3.mul_y Vec3.mul_z
  Vec3.neg_x Vec3.neg_y Vec3.neg_z Vec3.mulc_x Vec3.mulc_y Vec3.mulc_z
  Vec3.div_x Vec3.div_y Vec3.div_z Vec3.sub_scalar_x Vec3.sub_scalar_y
  Vec3.sub_scalar_z Vec3.add_scalar_x Vec3.add_scalar_y Vec3.add_scalar_z

/-- C10: `HitRecord::from(other)` copies `t`, `hit_point`, `normal`, `u`
and `v` from the source record and moves the material out of the source:
afterwards the destination's material equals the source's previous material
and the source's material is `None`, while every other field of the source
record is unchanged. -/
theorem hit_record_from_moves_material (self other : HitRecord) :
    (HitRecord.update_from self other).1.t = other.t ∧
    (HitRecord.update_from self other).1.hit_point = other.hit_point ∧
    (HitRecord.update_from self other).1.normal = other.normal ∧
    (HitRecord.update_from self other).1.u = other.u ∧
    (HitRecord.update_from self other).1.v = other.v ∧
    (HitRecord.update_from self other).1.material = other.material ∧
    (HitRecord.update_from self other).2.material = none ∧
    (HitRecord.update_from self other).2.t = other.t ∧
    (HitRecord.update_from self other).2.hit_point = other.hit_point ∧
    (HitRecord.update_from self other).2.normal = other.normal ∧
    (HitRecord.update_from self other).2.u = other.u ∧
    (HitRecord.update_from self other).2.v = other.v :=
  ⟨rfl, rfl, rfl, rfl, rfl, rfl, rfl, rfl, rfl, rfl, rfl, rfl⟩

/-- C9: `Dielectric::scatter` always reports `did_scatter = true` with
attenuation `(1, 1, 1)`, for every input ray, hit record and random
outcome; and Schlick's approximation at normal incidence (`cosine = 1`)
with refractive index 1.5 evaluates to `((1 - 1.5)/(1 + 1.5))² = 0.04`. -/
theorem dielectric_always_scatters_unit_attenuation (refractive_index : ℝ)
    (rnd : RandSample) (input_ray : Ray) (hit_record : HitRecord) :
    ((Material.dielectric refractive_index).scatter rnd input_ray hit_record).2.1 =
        Vec3.mk 1 1 1 ∧
    ((Material.dielectric refractive_index).scatter rnd input_ray hit_record).2.2 =
        true ∧
    schlick_approx 1 (3 / 2) = ((1 - 3 / 2) / (1 + 3 / 2)) ^ 2 ∧
    schlick_approx 1 (3 / 2) = 0.04 := by
  refine ⟨rfl, rfl, ?_, ?_⟩ <;> · unfold schlick_approx; norm_num

/-- C5 (failing-input evaluation): a ray lying inside an `XYRect`'s plane
(direction `z` component zero and origin `z` equal to `k`) makes
`XYRect::hit` return `true` with a record whose `t`, hit point and texture
coordinates are NaN — not the deterministic NaN-free miss the claim
requires.  The `0/0` ray parameter is NaN, every NaN comparison is false,
so both rejection tests pass. -/
theorem xy_rect_coplanar_ray_returns_nan_hit :
    fp_xy_rect_hit 0 0 2 0 2 1
        ⟨⟨.num 0, .num 0, .num 1⟩, ⟨.num 1, .num 0, .num 0⟩⟩
        (.num (1 / 1000)) (.num 1000000000) =
      some { t := .nan
             hit_point := ⟨.nan, .nan, .nan⟩
             normal := ⟨.num 0, .num 0, .num 1⟩
             material := some 0
             u := .nan
             v := .nan } := by
  have h0 : FP.sub (.num 1) (.num 1) = .num 0 := by
    simp only [FP.sub, FP.neg, FP.add]; norm_num
  have hdiv : (FP.num 0).div (.num 0) = .nan := by simp [FP.div]
  rw [fp_xy_rect_hit]
  simp only [h0, hdiv, FP.gt, FP.lt, FP.mul, FP.add, FP.sub, FP.neg, FP.div]
  norm_num

/-- C2: `BvhNode::new` does not terminate on an empty collection: for every
recursion-depth budget `fuel`, every outcome of the random axis draws and
every time window, the fuel-indexed model of the construction fails to
produce a node (the empty list falls into the split branch, which splits it
into two empty halves and recurses on both).  The claim that construction
terminates with a well-defined always-missing empty leaf is therefore
violated by the code. -/
theorem bvh_node_new_empty_no_result (axis_choice : List Bool → Fin 3)
    (start_time end_time : ℝ) (fuel : ℕ) (path : List Bool) :
    bvh_node_new axis_choice start_time end_time fuel path [] = none := by
  induction fuel generalizing path with
  | zero => rfl
  | succ n ih =>
      rw [bvh_node_new]
      simp only [bvh_sort, List.take_nil, List.drop_nil, ih]

theorem Ray.new_origin (o d : Vec3) (time : ℝ) : (Ray.new o d time).origin = o := rfl
theorem Ray.new_direction (o d : Vec3) (time : ℝ) :
    (Ray.new o d time).direction = d := rfl
theorem Ray.new_invert (o d : Vec3) (time : ℝ) :
    (Ray.new o d time).invert_direction = ⟨1 / d.x, 1 / d.y, 1 / d.z⟩ := rfl
theorem Ray.new_signX (o d : Vec3) (time : ℝ) :
    (Ray.new o d time).signX = decide (1 / d.x < 0) := rfl
theorem Ray.new_signY (o d : Vec3) (time : ℝ) :
    (Ray.new o d time).signY = decide (1 / d.y < 0) := rfl
theorem Ray.new_signZ (o d : Vec3) (time : ℝ) :
    (Ray.new o d time).signZ = decide (1 / d.z < 0) := rfl

theorem sphere_hit_eq (center : Vec3) (radius : ℝ) (material : Material)
    (ray : Ray) (t_min t_max : ℝ) :
    sphere_hit center radius material ray t_min t_max =
      (if dot (ray.origin - center) ray.direction *
            dot (ray.origin - center) ray.direction -
            dot ray.direction ray.direction *
              (dot (ray.origin - center) (ray.origin - center) - radius * radius) > 0
      then
        if (-dot (ray.origin - center) ray.direction -
              Real.sqrt (dot (ray.origin - center) ray.direction *
                dot (ray.origin - center) ray.direction -
                dot ray.direction ray.direction *
                  (dot (ray.origin - center) (ray.origin - center) - radius * radius))) /
              dot ray.direction ray.direction < t_max ∧
            (-dot (ray.origin - center) ray.direction -
              Real.sqrt (dot (ray.origin - center) ray.direction *
                dot (ray.origin - center) ray.direction -
                dot ray.direction ray.direction *
                  (dot (ray.origin - center) (ray.origin - center) - radius * radius))) /
              dot ray.direction ray.direction > t_min then
          some { t := (-dot (ray.origin - center) ray.direction -
                    Real.sqrt (dot (ray.origin - center) ray.direction *
                      dot (ray.origin - center) ray.direction -
                      dot ray.direction ray.direction *
                        (dot (ray.origin - center) (ray.origin - center) -
                          radius * radius))) / dot ray.direction ray.direction
                 hit_point := ray.point_at_param
                   ((-dot (ray.origin - center) ray.direction -
                      Real.sqrt (dot (ray.origin - center) ray.direction *
                        dot (ray.origin - center) ray.direction -
                        dot ray.direction ray.direction *
                          (dot (ray.origin - center) (ray.origin - center) -
                            radius * radius))) / dot ray.direction ray.direction)
                 normal := (ray.point_at_param
                   ((-dot (ray.origin - center) ray.direction -
                      Real.sqrt (dot (ray.origin - center) ray.direction *
                        dot (ray.origin - center) ray.direction -
                        dot ray.direction ray.direction *
                          (dot (ray.origin - center) (ray.origin - center) -
                            radius * radius))) / dot ray.direction ray.direction) -
                   center) / radius
                 material := some material
                 u := (get_sphere_uv ((ray.point_at_param
                   ((-dot (ray.origin - center) ray.direction -
                      Real.sqrt (dot (ray.origin - center) ray.direction *
                        dot (ray.origin - center) ray.direction -
                        dot ray.direction ray.direction *
                          (dot (ray.origin - center) (ray.origin - center) -
                            radius * radius))) / dot ray.direction ray.direction) -
                   center) / radius)).1
                 v := (get_sphere_uv ((ray.point_at_param
                   ((-dot (ray.origin - center) ray.direction -
                      Real.sqrt (dot (ray.origin - center) ray.direction *
                        dot (ray.origin - center) ray.direction -
                        dot ray.direction ray.direction *
                          (dot (ray.origin - center) (ray.origin - center) -
                            radius * radius))) / dot ray.direction ray.direction) -
                   center) / radius)).2 }
        else
          if (-dot (ray.origin - center) ray.direction +
                Real.sqrt (dot (ray.origin - center) ray.direction *
                  dot (ray.origin - center) ray.direction -
                  dot ray.direction ray.direction *
                    (dot (ray.origin - center) (ray.origin - center) - radius * radius))) /
                dot ray.direction ray.direction < t_max ∧
              (-dot (ray.origin - center) ray.direction +
                Real.sqrt (dot (ray.origin - center) ray.direction *
                  dot (ray.origin - center) ray.direction -
                  dot ray.direction ray.direction *
                    (dot (ray.origin - center) (ray.origin - center) - radius * radius))) /
                dot ray.direction ray.direction > t_min then
            some { t := (-dot (ray.origin - center) ray.direction +
                      Real.sqrt (dot (ray.origin - center) ray.direction *
                        dot (ray.origin - center) ray.direction -
                        dot ray.direction ray.direction *
                          (dot (ray.origin - center) (ray.origin - center) -
                            radius * radius))) / dot ray.direction ray.direction
                   hit_point := ray.point_at_param
                     ((-dot (ray.origin - center) ray.direction +
                        Real.sqrt (dot (ray.origin - center) ray.direction *
                          dot (ray.origin - center) ray.direction -
                          dot ray.direction ray.direction *
                            (dot (ray.origin - center) (ray.origin - center) -
                              radius * radius))) / dot ray.direction ray.direction)
                   normal := (ray.point_at_param
                     ((-dot (ray.origin - center) ray.direction +
                        Real.sqrt (dot (ray.origin - center) ray.direction *
                          dot (ray.origin - center) ray.direction -
                          dot ray.direction ray.direction *
                            (dot (ray.origin - center) (ray.origin - center) -
                              radius * radius))) / dot ray.direction ray.direction) -
                     center) / radius
                   material := some material
                   u := (get_sphere_uv ((ray.point_at_param
                     ((-dot (ray.origin - center) ray.direction +
                        Real.sqrt (dot (ray.origin - center) ray.direction *
                          dot (ray.origin - center) ray.direction -
                          dot ray.direction ray.direction *
                            (dot (ray.origin - center) (ray.origin - center) -
                              radius * radius))) / dot ray.direction ray.direction) -
                     center) / radius)).1
                   v := (get_sphere_uv ((ray.point_at_param
                     ((-dot (ray.origin - center) ray.direction +
                        Real.sqrt (dot (ray.origin - center) ray.direction *
                          dot (ray.origin - center) ray.direction -
                          dot ray.direction ray.direction *
                            (dot (ray.origin - center) (ray.origin - center) -
                              radius * radius))) / dot ray.direction ray.direction) -
                     center) / radius)).2 }
          else none
      else none) := rfl

theorem xy_rect_hit_eq (material : Material) (x_0 x_1 y_0 y_1 k : ℝ)
    (ray : Ray) (t_min t_max : ℝ) :
    xy_rect_hit material x_0 x_1 y_0 y_1 k ray t_min t_max =
      (if (k - ray.origin.z) / ray.direction.z < t_min ∨
          (k - ray.origin.z) / ray.direction.z > t_max then none
      else if ray.origin.x + (k - ray.origin.z) / ray.direction.z * ray.direction.x < x_0 ∨
          ray.origin.x + (k - ray.origin.z) / ray.direction.z * ray.direction.x > x_1 ∨
          ray.origin.y + (k - ray.origin.z) / ray.direction.z * ray.direction.y < y_0 ∨
          ray.origin.y + (k - ray.origin.z) / ray.direction.z * ray.direction.y > y_1 then
        none
      else
        some { t := (k - ray.origin.z) / ray.direction.z
               hit_point := ray.point_at_param ((k - ray.origin.z) / ray.direction.z)
               normal := ⟨0, 0, 1⟩
               material := some material
               u := (ray.origin.x + (k - ray.origin.z) / ray.direction.z * ray.direction.x
                      - x_0) / (x_1 - x_0)
               v := (ray.origin.y + (k - ray.origin.z) / ray.direction.z * ray.direction.y
                      - y_0) / (y_1 - y_0) }) := rfl

theorem get_color_hit_count_le (draws : ℕ → RandSample) :
    ∀ (n : ℕ) (ray : Ray) (world : Hitable) (depth : ℤ),
      (MAX_DEPTH + 1 - depth).toNat ≤ n →
      get_color_hit_count draws ray world depth ≤ (MAX_DEPTH - depth).toNat + 1 := by
  intro n
  induction n with
  | zero =>
      intro ray world depth hn
      rw [get_color_hit_count]
      split
      · split
        · next h => exfalso; have := h.1; simp only [MAX_DEPTH] at *; omega
        · omega
      · omega
  | succ n ih =>
      intro ray world depth hn
      rw [get_color_hit_count]
      split
      · next rec heq =>
          split
          · next h =>
              have hrec := ih
                ((scatter_and_emit rec.material (draws depth.toNat) ray rec).1.1)
                world (depth + 1) (by simp only [MAX_DEPTH] at *; omega)
              have := h.1
              simp only [MAX_DEPTH] at *
              omega
          · omega
      · omega

/-- C6: for every scene, starting ray and outcome of the random draws, the
radiance recursion started at depth 0 terminates (the counting function is
total) and performs at most `MAX_DEPTH + 1` scene hit evaluations, and no
call at depth at least `MAX_DEPTH` recurses (it performs exactly one hit
evaluation). -/
theorem get_color_hit_evaluations_bounded (draws : ℕ → RandSample) (ray : Ray)
    (world : Hitable) :
    get_color_hit_count draws ray world 0 ≤ MAX_DEPTH.toNat + 1 ∧
    ∀ depth : ℤ, MAX_DEPTH ≤ depth →
      get_color_hit_count draws ray world depth = 1 := by
  constructor
  · exact get_color_hit_count_le draws (MAX_DEPTH + 1).toNat ray world 0 (by rfl)
  · intro depth hdepth
    rw [get_color_hit_count]
    simp only [MAX_DEPTH] at hdepth
    split
    · split
      · next h => exact absurd h.1 (by simp only [MAX_DEPTH]; omega)
      · rfl
    · rfl

theorem Vec3.ext_iff (a b : Vec3) :
    a = b ↔ a.x = b.x ∧ a.y = b.y ∧ a.z = b.z := by
  constructor
  · intro h; subst h; exact ⟨rfl, rfl, rfl⟩
  · intro h; cases a; cases b; simp only at h; simp [h.1, h.2.1, h.2.2]

theorem demo_sphere_hit :
    sphere_hit ⟨0, 0, 0⟩ 1 (Material.lambertian (Texture.constant ⟨1/2, 1/2, 1/2⟩))
      (Ray.new ⟨2, 1, 2⟩ ⟨-2, -1, -2⟩ 0) 0.00001 FLOAT_MAX =
    some { t := 2/3
           hit_point := ⟨2/3, 1/3, 2/3⟩
           normal := ⟨2/3, 1/3, 2/3⟩
           material := some (Material.lambertian (Texture.constant ⟨1/2, 1/2, 1/2⟩))
           u := (get_sphere_uv ⟨2/3, 1/3, 2/3⟩).1
           v := (get_sphere_uv ⟨2/3, 1/3, 2/3⟩).2 } := by
  have h9 : Real.sqrt 9 = 3 := by
    rw [show (9 : ℝ) = 3 ^ 2 by norm_num, Real.sqrt_sq (by norm_num : (0:ℝ) ≤ 3)]
  have hpt : (Ray.new (Vec3.mk 2 1 2) ⟨-2, -1, -2⟩ 0).point_at_param (2/3) =
      Vec3.mk (2/3) (1/3) (2/3) := by
    rw [Ray.point_at_param, Ray.new_origin, Ray.new_direction]
    rw [Vec3.ext_iff]
    norm_num
  have hnorm : ((Vec3.mk (2/3 : ℝ) (1/3) (2/3)) - (Vec3.mk 0 0 0)) / (1:ℝ) =
      Vec3.mk (2/3) (1/3) (2/3) := by
    rw [Vec3.ext_iff]
    norm_num
  rw [sphere_hit]
  simp only [Ray.new_origin, Ray.new_direction, dot]
  norm_num [h9, FLOAT_MAX]
  rw [hpt, hnorm]
  exact ⟨rfl, rfl, rfl, rfl⟩

theorem demo_box_hit :
    (AxisAlignedBoundingBox.mk ⟨-1, -1, -1⟩ ⟨1, 1, 1⟩).hit
      (Ray.new ⟨2, 1, 2⟩ ⟨-2, -1, -2⟩ 0) 0.00001 FLOAT_MAX = true := by
  have hsx : (Ray.new (Vec3.mk 2 1 2) ⟨-2, -1, -2⟩ 0).signX = true := by
    rw [Ray.new_signX]; simp only [decide_eq_true_eq]; norm_num
  have hsy : (Ray.new (Vec3.mk 2 1 2) ⟨-2, -1, -2⟩ 0).signY = true := by
    rw [Ray.new_signY]; simp only [decide_eq_true_eq]; norm_num
  have hsz : (Ray.new (Vec3.mk 2 1 2) ⟨-2, -1, -2⟩ 0).signZ = true := by
    rw [Ray.new_signZ]; simp only [decide_eq_true_eq]; norm_num
  rw [AxisAlignedBoundingBox.hit]
  simp only [hsx, hsy, hsz, Ray.new_origin, Ray.new_invert,
    AxisAlignedBoundingBox.bounds, Bool.not_true, if_true, if_false,
    Bool.false_eq_true, FLOAT_MAX]
  norm_num

theorem demo_world_hit :
    Hitable.hit
      (.bvhNode (.sphere ⟨0, 0, 0⟩ 1 (Material.lambertian (Texture.constant ⟨1/2, 1/2, 1/2⟩)))
                (.sphere ⟨0, 0, 0⟩ 1 (Material.lambertian (Texture.constant ⟨1/2, 1/2, 1/2⟩)))
                ⟨⟨-1, -1, -1⟩, ⟨1, 1, 1⟩⟩)
      (Ray.new ⟨2, 1, 2⟩ ⟨-2, -1, -2⟩ 0) 0.00001 FLOAT_MAX =
    some { t := 2/3
           hit_point := ⟨2/3, 1/3, 2/3⟩
           normal := ⟨2/3, 1/3, 2/3⟩
           material := some (Material.lambertian (Texture.constant ⟨1/2, 1/2, 1/2⟩))
           u := (get_sphere_uv ⟨2/3, 1/3, 2/3⟩).1
           v := (get_sphere_uv ⟨2/3, 1/3, 2/3⟩).2 } := by
  simp only [Hitable.hit, demo_box_hit, if_true, demo_sphere_hit]
  norm_num


/-- C7: whenever the scene query (made over the interval
`(0.00001, f64::MAX)`, a small positive epsilon and the largest finite
double standing for an unbounded upper end) reports a hit, `get_color`
returns exactly the emitted light when `depth ≥ MAX_DEPTH` or the material
did not scatter, and `emitted + attenuation * get_color(scattered, depth+1)`
otherwise. -/
theorem get_color_hit_branches (draws : ℕ → RandSample) (ray : Ray)
    (world : Hitable) (depth : ℤ) (rec : HitRecord)
    (hhit : Hitable.hit world ray 0.00001 FLOAT_MAX = some rec) :
    (0 : ℝ) < 0.00001 ∧ (0.00001 : ℝ) ≤ 0.0001 ∧
    ((MAX_DEPTH ≤ depth ∨
        (scatter_and_emit rec.material (draws depth.toNat) ray rec).1.2.2 = false) →
      get_color draws ray world depth =
        (scatter_and_emit rec.material (draws depth.toNat) ray rec).2) ∧
    (depth < MAX_DEPTH →
      (scatter_and_emit rec.material (draws depth.toNat) ray rec).1.2.2 = true →
      get_color draws ray world depth =
        (scatter_and_emit rec.material (draws depth.toNat) ray rec).2 +
          (scatter_and_emit rec.material (draws depth.toNat) ray rec).1.2.1 *
            get_color draws
              (scatter_and_emit rec.material (draws depth.toNat) ray rec).1.1
              world (depth + 1)) := by
  refine ⟨by norm_num, by norm_num, ?_, ?_⟩
  · intro hcase
    rw [get_color]
    simp only [hhit]
    rw [if_neg]
    rintro ⟨h1, h2⟩
    rcases hcase with h | h
    · exact absurd h1 (not_lt.mpr h)
    · rw [h] at h2; exact Bool.false_ne_true h2
  · intro h1 h2
    rw [get_color]
    simp only [hhit]
    rw [if_pos ⟨h1, h2⟩]

theorem get_color_hit_branches_witness :
    (Hitable.hit
      (.bvhNode (.sphere ⟨0, 0, 0⟩ 1 (Material.lambertian (Texture.constant ⟨1/2, 1/2, 1/2⟩)))
                (.sphere ⟨0, 0, 0⟩ 1 (Material.lambertian (Texture.constant ⟨1/2, 1/2, 1/2⟩)))
                ⟨⟨-1, -1, -1⟩, ⟨1, 1, 1⟩⟩)
      (Ray.new ⟨2, 1, 2⟩ ⟨-2, -1, -2⟩ 0) 0.00001 FLOAT_MAX =
      some { t := 2/3
             hit_point := ⟨2/3, 1/3, 2/3⟩
             normal := ⟨2/3, 1/3, 2/3⟩
             material := some (Material.lambertian (Texture.constant ⟨1/2, 1/2, 1/2⟩))
             u := (get_sphere_uv ⟨2/3, 1/3, 2/3⟩).1
             v := (get_sphere_uv ⟨2/3, 1/3, 2/3⟩).2 }) ∧
    get_color (fun _ => ⟨⟨0, 0, 0⟩, 0⟩) (Ray.new ⟨2, 1, 2⟩ ⟨-2, -1, -2⟩ 0)
      (.bvhNode (.sphere ⟨0, 0, 0⟩ 1 (Material.lambertian (Texture.constant ⟨1/2, 1/2, 1/2⟩)))
                (.sphere ⟨0, 0, 0⟩ 1 (Material.lambertian (Texture.constant ⟨1/2, 1/2, 1/2⟩)))
                ⟨⟨-1, -1, -1⟩, ⟨1, 1, 1⟩⟩)
      MAX_DEPTH =
      (scatter_and_emit (some (Material.lambertian (Texture.constant ⟨1/2, 1/2, 1/2⟩)))
        (RandSample.mk ⟨0, 0, 0⟩ 0) (Ray.new ⟨2, 1, 2⟩ ⟨-2, -1, -2⟩ 0)
        { t := 2/3
          hit_point := ⟨2/3, 1/3, 2/3⟩
          normal := ⟨2/3, 1/3, 2/3⟩
          material := some (Material.lambertian (Texture.constant ⟨1/2, 1/2, 1/2⟩))
          u := (get_sphere_uv ⟨2/3, 1/3, 2/3⟩).1
          v := (get_sphere_uv ⟨2/3, 1/3, 2/3⟩).2 }).2 := by
  refine ⟨demo_world_hit, ?_⟩
  exact (get_color_hit_branches (fun _ => ⟨⟨0, 0, 0⟩, 0⟩) _ _ MAX_DEPTH _
    demo_world_hit).2.2.1 (Or.inl le_rfl)

theorem texture_value_nonneg (tex : Texture) (h : texture_nonneg tex)
    (u v : ℝ) (p : Vec3) :
    0 ≤ (tex.value u v p).x ∧ 0 ≤ (tex.value u v p).y ∧ 0 ≤ (tex.value u v p).z := by
  induction tex generalizing u v p with
  | constant color => exact h
  | checker even odd ihe iho =>
      rw [Texture.value]
      split
      · exact iho h.2 u v p
      · exact ihe h.1 u v p
  | noise turbulance frequency octaves =>
      rw [Texture.value]
      have hs := Real.neg_one_le_sin (frequency * p.x +
        5 * |turbulance (p * frequency) octaves 1|)
      refine ⟨?_, ?_, ?_⟩ <;> · simp only [Vec3.mulc_x, Vec3.mulc_y, Vec3.mulc_z]; nlinarith
  | image data num_x num_y =>
      rw [Texture.value]
      refine ⟨?_, ?_, ?_⟩ <;> · positivity

theorem scatter_attenuation_nonneg (m : Material) (rnd : RandSample) (ray : Ray)
    (rec : HitRecord) (h : material_nonneg m) :
    0 ≤ (m.scatter rnd ray rec).2.1.x ∧ 0 ≤ (m.scatter rnd ray rec).2.1.y ∧
      0 ≤ (m.scatter rnd ray rec).2.1.z := by
  cases m with
  | lambertian albedo => exact texture_value_nonneg albedo h rec.u rec.v rec.hit_point
  | metal albedo e f => exact texture_value_nonneg albedo h.1 rec.u rec.v rec.hit_point
  | dielectric ri => refine ⟨?_, ?_, ?_⟩ <;> norm_num [Material.scatter]
  | diffuseLight tex => refine ⟨?_, ?_, ?_⟩ <;> norm_num [Material.scatter]
  | isotropic albedo => exact texture_value_nonneg albedo h rec.u rec.v rec.hit_point
  | glossy albedo spec emit gl ri =>
      rw [Material.scatter]
      split
      · exact texture_value_nonneg spec h.2.1 rec.u rec.v rec.hit_point
      · exact texture_value_nonneg albedo h.1 rec.u rec.v rec.hit_point

theorem emit_nonneg (m : Material) (u v : ℝ) (p : Vec3) (h : material_nonneg m) :
    0 ≤ (m.emit u v p).x ∧ 0 ≤ (m.emit u v p).y ∧ 0 ≤ (m.emit u v p).z := by
  cases m with
  | metal albedo e f => exact texture_value_nonneg e h.2 u v p
  | diffuseLight tex => exact texture_value_nonneg tex h u v p
  | glossy albedo spec e gl ri => exact texture_value_nonneg e h.2.2 u v p
  | lambertian albedo => refine ⟨?_, ?_, ?_⟩ <;> norm_num [Material.emit]
  | dielectric ri => refine ⟨?_, ?_, ?_⟩ <;> norm_num [Material.emit]
  | isotropic albedo => refine ⟨?_, ?_, ?_⟩ <;> norm_num [Material.emit]

theorem hitable_list_hit_fold_inv (ray : Ray) (t_min : ℝ)
    (Inv : ℝ → Option HitRecord → Prop) :
    ∀ (xs : List Hitable) (closest : ℝ) (best : Option HitRecord),
      (∀ x ∈ xs, ∀ c b, Inv c b → ∀ rec, Hitable.hit x ray t_min c = some rec →
        Inv rec.t (some rec)) →
      Inv closest best →
      ∃ c2, Inv c2 (hitable_list_hit_fold xs ray t_min closest best) := by
  intro xs
  induction xs with
  | nil =>
      intro c b _ h
      exact ⟨c, by rw [hitable_list_hit_fold]; exact h⟩
  | cons x rest ih =>
      intro c b hstep hinv
      rw [hitable_list_hit_fold]
      cases hx : Hitable.hit x ray t_min c with
      | some rec =>
          exact ih rec.t (some rec)
            (fun y hy => hstep y (List.mem_cons_of_mem _ hy))
            (hstep x (List.mem_cons_self _ _) c b hinv rec hx)
      | none =>
          exact ih c b (fun y hy => hstep y (List.mem_cons_of_mem _ hy)) hinv

theorem hit_material_nonneg :
    ∀ (n : ℕ) (world : Hitable), sizeOf world ≤ n →
      world_materials_nonneg world →
      ∀ (ray : Ray) (t_min t_max : ℝ) (rec : HitRecord),
        Hitable.hit world ray t_min t_max = some rec →
        ∀ m, rec.material = some m → material_nonneg m := by
  intro n
  induction n with
  | zero => intro world hsz; exfalso; cases world <;> simp at hsz
  | succ n ih =>
      intro world hsz hw ray t_min t_max rec hhit m hm
      cases world with
      | sphere center radius material =>
          cases hw with
          | sphere _ _ _ hmat =>
              rw [Hitable.hit, sphere_hit_eq] at hhit
              split at hhit
              · split at hhit
                · cases hhit
                  rw [HitRecord.material] at hm
                  cases hm
                  exact hmat
                · split at hhit
                  · cases hhit
                    rw [HitRecord.material] at hm
                    cases hm
                    exact hmat
                  · cases hhit
              · cases hhit
      | xyRect material x_0 x_1 y_0 y_1 k =>
          cases hw with
          | xyRect _ _ _ _ _ _ hmat =>
              rw [Hitable.hit, xy_rect_hit_eq] at hhit
              split at hhit
              · cases hhit
              · split at hhit
                · cases hhit
                · cases hhit
                  rw [HitRecord.material] at hm
                  cases hm
                  exact hmat
      | flipNormals inner =>
          cases hw with
          | flip _ hw2 =>
              rw [Hitable.hit] at hhit
              split at hhit
              · next rec2 heq =>
                  cases hhit
                  rw [HitRecord.material] at hm
                  exact ih inner (by simp at hsz; omega) hw2 ray t_min t_max rec2
                    heq m hm
              · cases hhit
      | hitableList xs =>
          cases hw with
          | list _ hall =>
              rw [Hitable.hit] at hhit
              have hfold := hitable_list_hit_fold_inv ray t_min
                (fun _ b => ∀ r mm, b = some r → r.material = some mm →
                  material_nonneg mm) xs t_max none
                (fun x hx c b _ r2 hr2 => by
                  rintro r3 mm h3 hmm
                  injection h3 with h3
                  subst h3
                  exact ih x (by
                      have := List.sizeOf_lt_of_mem hx
                      simp at hsz
                      omega)
                    (hall x hx) ray t_min c _ hr2 mm hmm)
                (by intro r mm h; cases h)
              obtain ⟨c2, hc2⟩ := hfold
              exact hc2 rec m hhit hm
      | bvhNode left right box =>
          cases hw with
          | node _ _ _ hl hr =>
              rw [Hitable.hit] at hhit
              split at hhit
              · cases heql : Hitable.hit left ray t_min t_max with
                | some lrec =>
                    cases heqr : Hitable.hit right ray t_min t_max with
                    | some rrec =>
                        simp only [heql, heqr] at hhit
                        split at hhit
                        · cases hhit
                          exact ih left (by simp at hsz; omega) hl ray t_min
                            t_max rec heql m hm
                        · cases hhit
                          exact ih right (by simp at hsz; omega) hr ray t_min
                            t_max rec heqr m hm
                    | none =>
                        simp only [heql, heqr] at hhit
                        cases hhit
                        exact ih left (by simp at hsz; omega) hl ray t_min
                          t_max rec heql m hm
                | none =>
                    cases heqr : Hitable.hit right ray t_min t_max with
                    | some rrec =>
                        simp only [heql, heqr] at hhit
                        cases hhit
                        exact ih right (by simp at hsz; omega) hr ray t_min
                          t_max rec heqr m hm
                    | none =>
                        simp only [heql, heqr] at hhit
                        cases hhit
              · cases hhit

theorem scatter_and_emit_nonneg (mat_opt : Option Material) (rnd : RandSample)
    (ray : Ray) (rec : HitRecord)
    (h : ∀ m, mat_opt = some m → material_nonneg m) :
    (0 ≤ (scatter_and_emit mat_opt rnd ray rec).2.x ∧
     0 ≤ (scatter_and_emit mat_opt rnd ray rec).2.y ∧
     0 ≤ (scatter_and_emit mat_opt rnd ray rec).2.z) ∧
    (0 ≤ (scatter_and_emit mat_opt rnd ray rec).1.2.1.x ∧
     0 ≤ (scatter_and_emit mat_opt rnd ray rec).1.2.1.y ∧
     0 ≤ (scatter_and_emit mat_opt rnd ray rec).1.2.1.z) := by
  cases mat_opt with
  | none =>
      rw [scatter_and_emit]
      exact ⟨⟨le_refl 0, le_refl 0, le_refl 0⟩, ⟨le_refl 0, le_refl 0, le_refl 0⟩⟩
  | some mat =>
      rw [scatter_and_emit]
      exact ⟨emit_nonneg mat rec.u rec.v rec.hit_point (h mat rfl),
        scatter_attenuation_nonneg mat rnd ray rec (h mat rfl)⟩

theorem get_color_nonneg_aux (draws : ℕ → RandSample) :
    ∀ (n : ℕ) (ray : Ray) (world : Hitable) (depth : ℤ),
      (MAX_DEPTH + 1 - depth).toNat ≤ n → world_materials_nonneg world →
      0 ≤ (get_color draws ray world depth).x ∧
      0 ≤ (get_color draws ray world depth).y ∧
      0 ≤ (get_color draws ray world depth).z := by
  intro n
  induction n with
  | zero =>
      intro ray world depth hn hw
      rw [get_color]
      split
      · next rec heq =>
          split
          · next h => exfalso; have := h.1; simp only [MAX_DEPTH] at *; omega
          · exact (scatter_and_emit_nonneg rec.material (draws depth.toNat) ray rec
              (fun m hm => hit_material_nonneg (sizeOf world) world le_rfl hw
                ray 0.00001 FLOAT_MAX rec heq m hm)).1
      · exact ⟨le_refl 0, le_refl 0, le_refl 0⟩
  | succ n ih =>
      intro ray world depth hn hw
      rw [get_color]
      split
      · next rec heq =>
          have hsae := scatter_and_emit_nonneg rec.material (draws depth.toNat)
            ray rec
            (fun m hm => hit_material_nonneg (sizeOf world) world le_rfl hw
              ray 0.00001 FLOAT_MAX rec heq m hm)
          split
          · next h =>
              have hrec := ih
                ((scatter_and_emit rec.material (draws depth.toNat) ray rec).1.1)
                world (depth + 1) (by simp only [MAX_DEPTH] at *; omega) hw
              refine ⟨?_, ?_, ?_⟩
              · exact add_nonneg hsae.1.1 (mul_nonneg hsae.2.1 hrec.1)
              · exact add_nonneg hsae.1.2.1 (mul_nonneg hsae.2.2.1 hrec.2.1)
              · exact add_nonneg hsae.1.2.2 (mul_nonneg hsae.2.2.2 hrec.2.2)
          · exact hsae.1
      · exact ⟨le_refl 0, le_refl 0, le_refl 0⟩

/-- C8: for every scene built from the provided materials and textures
(constant colors with non-negative components, checkers, noise and image
textures), every ray, every depth and every outcome of the random draws,
the color returned by `get_color` has all three components non-negative. -/
theorem get_color_components_nonneg (draws : ℕ → RandSample) (ray : Ray)
    (world : Hitable) (depth : ℤ) (hw : world_materials_nonneg world) :
    0 ≤ (get_color draws ray world depth).x ∧
    0 ≤ (get_color draws ray world depth).y ∧
    0 ≤ (get_color draws ray world depth).z :=
  get_color_nonneg_aux draws (MAX_DEPTH + 1 - depth).toNat ray world depth
    le_rfl hw

/-- Witness for C8 at a concrete scene: a BVH of a Lambertian sphere with a
constant gray albedo, a concrete ray, depth 0. -/
theorem get_color_components_nonneg_witness :
    world_materials_nonneg
      (.bvhNode (.sphere ⟨0, 0, 0⟩ 1 (Material.lambertian (Texture.constant ⟨1/2, 1/2, 1/2⟩)))
                (.sphere ⟨0, 0, 0⟩ 1 (Material.lambertian (Texture.constant ⟨1/2, 1/2, 1/2⟩)))
                ⟨⟨-1, -1, -1⟩, ⟨1, 1, 1⟩⟩) ∧
    (0 ≤ (get_color (fun _ => ⟨⟨0, 0, 0⟩, 0⟩) (Ray.new ⟨2, 1, 2⟩ ⟨-2, -1, -2⟩ 0)
      (.bvhNode (.sphere ⟨0, 0, 0⟩ 1 (Material.lambertian (Texture.constant ⟨1/2, 1/2, 1/2⟩)))
                (.sphere ⟨0, 0, 0⟩ 1 (Material.lambertian (Texture.constant ⟨1/2, 1/2, 1/2⟩)))
                ⟨⟨-1, -1, -1⟩, ⟨1, 1, 1⟩⟩) 0).x ∧
     0 ≤ (get_color (fun _ => ⟨⟨0, 0, 0⟩, 0⟩) (Ray.new ⟨2, 1, 2⟩ ⟨-2, -1, -2⟩ 0)
      (.bvhNode (.sphere ⟨0, 0, 0⟩ 1 (Material.lambertian (Texture.constant ⟨1/2, 1/2, 1/2⟩)))
                (.sphere ⟨0, 0, 0⟩ 1 (Material.lambertian (Texture.constant ⟨1/2, 1/2, 1/2⟩)))
                ⟨⟨-1, -1, -1⟩, ⟨1, 1, 1⟩⟩) 0).y ∧
     0 ≤ (get_color (fun _ => ⟨⟨0, 0, 0⟩, 0⟩) (Ray.new ⟨2, 1, 2⟩ ⟨-2, -1, -2⟩ 0)
      (.bvhNode (.sphere ⟨0, 0, 0⟩ 1 (Material.lambertian (Texture.constant ⟨1/2, 1/2, 1/2⟩)))
                (.sphere ⟨0, 0, 0⟩ 1 (Material.lambertian (Texture.constant ⟨1/2, 1/2, 1/2⟩)))
                ⟨⟨-1, -1, -1⟩, ⟨1, 1, 1⟩⟩) 0).z) := by
  have hmat : material_nonneg
      (Material.lambertian (Texture.constant ⟨1/2, 1/2, 1/2⟩)) := by
    rw [material_nonneg, texture_nonneg]
    norm_num
  have hw : world_materials_nonneg
      (.bvhNode (.sphere ⟨0, 0, 0⟩ 1 (Material.lambertian (Texture.constant ⟨1/2, 1/2, 1/2⟩)))
                (.sphere ⟨0, 0, 0⟩ 1 (Material.lambertian (Texture.constant ⟨1/2, 1/2, 1/2⟩)))
                ⟨⟨-1, -1, -1⟩, ⟨1, 1, 1⟩⟩) :=
    .node _ _ _ (.sphere _ _ _ hmat) (.sphere _ _ _ hmat)
  exact ⟨hw, get_color_components_nonneg _ _ _ 0 hw⟩

theorem AxisAlignedBoundingBox.bounds_x (box : AxisAlignedBoundingBox) (s : Bool) :
    (box.bounds s).x = if s then box.max_bound.x else box.min_bound.x := by
  rw [AxisAlignedBoundingBox.bounds]; split <;> rfl

theorem AxisAlignedBoundingBox.bounds_y (box : AxisAlignedBoundingBox) (s : Bool) :
    (box.bounds s).y = if s then box.max_bound.y else box.min_bound.y := by
  rw [AxisAlignedBoundingBox.bounds]; split <;> rfl

theorem AxisAlignedBoundingBox.bounds_z (box : AxisAlignedBoundingBox) (s : Bool) :
    (box.bounds s).z = if s then box.max_bound.z else box.min_bound.z := by
  rw [AxisAlignedBoundingBox.bounds]; split <;> rfl

theorem Vec3.mk_x (a b c : ℝ) : (Vec3.mk a b c).x = a := rfl
theorem Vec3.mk_y (a b c : ℝ) : (Vec3.mk a b c).y = b := rfl
theorem Vec3.mk_z (a b c : ℝ) : (Vec3.mk a b c).z = c := rfl

theorem slab_entry_exit_eq (lo hi o d : ℝ) (hd : d ≠ 0) (hlh : lo ≤ hi) :
    ((if decide ((1:ℝ)/d < 0) then hi else lo) - o) * (1/d) = slab_lo lo hi o d ∧
    ((if !decide ((1:ℝ)/d < 0) then hi else lo) - o) * (1/d) = slab_hi lo hi o d := by
  have hdiv : ∀ a : ℝ, (a - o) * (1/d) = (a - o) / d := fun a =>
    mul_one_div _ _
  rcases lt_or_gt_of_ne hd with hneg | hpos
  · have hs : decide ((1:ℝ)/d < 0) = true := by
      simp only [decide_eq_true_eq]; exact one_div_neg.mpr hneg
    have hle : (hi - o) / d ≤ (lo - o) / d :=
      (div_le_div_right_of_neg hneg).mpr (by linarith)
    rw [hs]
    simp only [Bool.not_true, if_true, if_false, Bool.false_eq_true]
    rw [hdiv, hdiv, slab_lo, slab_hi]
    exact ⟨(min_eq_right hle).symm, (max_eq_left hle).symm⟩
  · have hs : decide ((1:ℝ)/d < 0) = false := by
      simp only [decide_eq_false_iff_not, not_lt]
      positivity
    have hle : (lo - o) / d ≤ (hi - o) / d :=
      (div_le_div_iff_of_pos_right hpos).mpr (by linarith)
    rw [hs]
    simp only [Bool.not_false, if_true, if_false, Bool.false_eq_true]
    rw [hdiv, hdiv, slab_lo, slab_hi]
    exact ⟨(min_eq_left hle).symm, (max_eq_right hle).symm⟩

theorem spec_slab_lo_hi_eq (lo hi o d : ℝ) (hd : d ≠ 0) (hlh : lo ≤ hi) :
    (if d < 0 then (hi - o)/d else (lo - o)/d) = slab_lo lo hi o d ∧
    (if d < 0 then (lo - o)/d else (hi - o)/d) = slab_hi lo hi o d := by
  rcases lt_or_gt_of_ne hd with hneg | hpos
  · have hle : (hi - o) / d ≤ (lo - o) / d :=
      (div_le_div_right_of_neg hneg).mpr (by linarith)
    rw [if_pos hneg, if_pos hneg, slab_lo, slab_hi]
    exact ⟨(min_eq_right hle).symm, (max_eq_left hle).symm⟩
  · have hle : (lo - o) / d ≤ (hi - o) / d :=
      (div_le_div_iff_of_pos_right hpos).mpr (by linarith)
    rw [if_neg (not_lt.mpr hpos.le), if_neg (not_lt.mpr hpos.le), slab_lo, slab_hi]
    exact ⟨(min_eq_left hle).symm, (max_eq_right hle).symm⟩

theorem if_gt_eq_max (a b : ℝ) : (if b > a then b else a) = max a b := by
  split_ifs with h
  · exact (max_eq_right h.le).symm
  · exact (max_eq_left (not_lt.mp h)).symm

theorem if_lt_eq_min (a b : ℝ) : (if b < a then b else a) = min a b := by
  split_ifs with h
  · exact (min_eq_right h.le).symm
  · exact (min_eq_left (not_lt.mp h)).symm

theorem slab_lo_le_hi (lo hi o d : ℝ) : slab_lo lo hi o d ≤ slab_hi lo hi o d :=
  min_le_max

theorem entry_le_exit_parts {l1 l2 l3 m1 m2 m3 : ℝ}
    (h : max (max l1 l2) l3 ≤ min (min m1 m2) m3) :
    l1 ≤ m1 ∧ l1 ≤ m2 ∧ l1 ≤ m3 ∧ l2 ≤ m1 ∧ l2 ≤ m2 ∧ l2 ≤ m3 ∧
    l3 ≤ m1 ∧ l3 ≤ m2 ∧ l3 ≤ m3 := by
  simp only [max_le_iff, le_min_iff] at h
  tauto

theorem entry_le_exit_of_parts {l1 l2 l3 m1 m2 m3 : ℝ}
    (a : l1 ≤ m1) (b : l1 ≤ m2) (c : l1 ≤ m3) (d : l2 ≤ m1) (e : l2 ≤ m2)
    (f : l2 ≤ m3) (g : l3 ≤ m1) (i : l3 ≤ m2) (j : l3 ≤ m3) :
    max (max l1 l2) l3 ≤ min (min m1 m2) m3 := by
  simp only [max_le_iff, le_min_iff]
  tauto

theorem aabb_hit_char (box : AxisAlignedBoundingBox) (o d : Vec3)
    (time t_min t_max : ℝ) (hv : box_valid box)
    (hdx : d.x ≠ 0) (hdy : d.y ≠ 0) (hdz : d.z ≠ 0) :
    box.hit (Ray.new o d time) t_min t_max = true ↔
      box_entry box o d ≤ box_exit box o d ∧ box_entry box o d < t_max ∧
        t_min < box_exit box o d := by
  have hx := slab_entry_exit_eq box.min_bound.x box.max_bound.x o.x d.x hdx hv.1
  have hy := slab_entry_exit_eq box.min_bound.y box.max_bound.y o.y d.y hdy hv.2.1
  have hz := slab_entry_exit_eq box.min_bound.z box.max_bound.z o.z d.z hdz hv.2.2
  rw [AxisAlignedBoundingBox.hit]
  simp only [Ray.new_signX, Ray.new_signY, Ray.new_signZ, Ray.new_invert,
    Ray.new_origin, AxisAlignedBoundingBox.bounds_x, AxisAlignedBoundingBox.bounds_y,
    AxisAlignedBoundingBox.bounds_z, Vec3.mk_x, Vec3.mk_y, Vec3.mk_z]
  rw [hx.1, hx.2, hy.1, hy.2, hz.1, hz.2]
  simp only [if_gt_eq_max, if_lt_eq_min]
  rw [box_entry, box_exit]
  split_ifs with h1 h2
  · simp only [Bool.false_eq_true, false_iff]
    rintro ⟨hle, -, -⟩
    have hp := entry_le_exit_parts hle
    rcases h1 with h | h
    · linarith [hp.2.1]
    · linarith [hp.2.2.2.1]
  · simp only [Bool.false_eq_true, false_iff]
    rintro ⟨hle, -, -⟩
    have hp := entry_le_exit_parts hle
    rcases h2 with h | h
    · linarith [max_le hp.2.2.1 hp.2.2.2.2.2.1]
    · linarith [le_min hp.2.2.2.2.2.2.1 hp.2.2.2.2.2.2.2.1]
  · rw [decide_eq_true_iff]
    push_neg at h1 h2
    rw [max_le_iff] at h2
    constructor
    · rintro ⟨ha, hb⟩
      refine ⟨?_, ha, hb⟩
      rcases h2 with ⟨⟨hxz, hyz⟩, hz2⟩
      rw [le_min_iff] at hz2
      exact entry_le_exit_of_parts (slab_lo_le_hi _ _ _ _) h1.1 hxz h1.2
        (slab_lo_le_hi _ _ _ _) hyz hz2.1 hz2.2 (slab_lo_le_hi _ _ _ _)
    · rintro ⟨-, ha, hb⟩
      exact ⟨ha, hb⟩


theorem min_stage_le {t_max m1 m2 m3 : ℝ} :
    min t_max (min (min m1 m2) m3) ≤ min (min t_max m1) m2 := by
  simp only [le_min_iff, min_le_iff, le_refl, true_or, or_true, and_self,
    and_true, true_and]

theorem min_stage_le_one {t_max m1 m2 m3 : ℝ} :
    min t_max (min (min m1 m2) m3) ≤ min t_max m1 := by
  simp only [le_min_iff, min_le_iff, le_refl, true_or, or_true, and_self,
    and_true, true_and]

theorem max_stage_ge_one {t_min l1 l2 l3 : ℝ} :
    max t_min l1 ≤ max t_min (max (max l1 l2) l3) :=
  max_le_max le_rfl (le_trans (le_max_left l1 l2) (le_max_left _ l3))

theorem max_stage_ge {t_min l1 l2 l3 : ℝ} :
    max (max t_min l1) l2 ≤ max t_min (max (max l1 l2) l3) :=
  max_le max_stage_ge_one
    (le_trans (le_trans (le_max_right l1 l2) (le_max_left _ l3))
      (le_max_right t_min _))

theorem spec_slab_hit_char (box : AxisAlignedBoundingBox) (o d : Vec3)
    (time t_min t_max : ℝ) (hv : box_valid box)
    (hdx : d.x ≠ 0) (hdy : d.y ≠ 0) (hdz : d.z ≠ 0) :
    spec_slab_hit box (Ray.new o d time) t_min t_max = true ↔
      max t_min (box_entry box o d) < min t_max (box_exit box o d) := by
  have hx := spec_slab_lo_hi_eq box.min_bound.x box.max_bound.x o.x d.x hdx hv.1
  have hy := spec_slab_lo_hi_eq box.min_bound.y box.max_bound.y o.y d.y hdy hv.2.1
  have hz := spec_slab_lo_hi_eq box.min_bound.z box.max_bound.z o.z d.z hdz hv.2.2
  rw [spec_slab_hit]
  simp only [Ray.new_direction, Ray.new_origin, Vec3.mk_x, Vec3.mk_y, Vec3.mk_z]
  rw [hx.1, hx.2, hy.1, hy.2, hz.1, hz.2]
  split_ifs with h1 h2 h3
  · simp only [Bool.false_eq_true, false_iff, not_lt]
    calc min t_max (box_exit box o d) ≤
        min t_max (slab_hi box.min_bound.x box.max_bound.x o.x d.x) := by
          rw [box_exit]; exact min_stage_le_one
      _ ≤ max t_min (slab_lo box.min_bound.x box.max_bound.x o.x d.x) := h1
      _ ≤ max t_min (box_entry box o d) := by rw [box_entry]; exact max_stage_ge_one
  · simp only [Bool.false_eq_true, false_iff, not_lt]
    calc min t_max (box_exit box o d) ≤
        min (min t_max (slab_hi box.min_bound.x box.max_bound.x o.x d.x))
          (slab_hi box.min_bound.y box.max_bound.y o.y d.y) := by
          rw [box_exit]; exact min_stage_le
      _ ≤ max (max t_min (slab_lo box.min_bound.x box.max_bound.x o.x d.x))
          (slab_lo box.min_bound.y box.max_bound.y o.y d.y) := h2
      _ ≤ max t_min (box_entry box o d) := by rw [box_entry]; exact max_stage_ge
  · simp only [Bool.false_eq_true, false_iff, not_lt]
    have e1 : max (max (max t_min
        (slab_lo box.min_bound.x box.max_bound.x o.x d.x))
        (slab_lo box.min_bound.y box.max_bound.y o.y d.y))
        (slab_lo box.min_bound.z box.max_bound.z o.z d.z) =
        max t_min (box_entry box o d) := by
      rw [box_entry]; simp only [max_assoc]
    have e2 : min (min (min t_max
        (slab_hi box.min_bound.x box.max_bound.x o.x d.x))
        (slab_hi box.min_bound.y box.max_bound.y o.y d.y))
        (slab_hi box.min_bound.z box.max_bound.z o.z d.z) =
        min t_max (box_exit box o d) := by
      rw [box_exit]; simp only [min_assoc]
    rw [e1, e2] at h3
    exact h3
  · simp only [true_iff]
    have e1 : max (max (max t_min
        (slab_lo box.min_bound.x box.max_bound.x o.x d.x))
        (slab_lo box.min_bound.y box.max_bound.y o.y d.y))
        (slab_lo box.min_bound.z box.max_bound.z o.z d.z) =
        max t_min (box_entry box o d) := by
      rw [box_entry]; simp only [max_assoc]
    have e2 : min (min (min t_max
        (slab_hi box.min_bound.x box.max_bound.x o.x d.x))
        (slab_hi box.min_bound.y box.max_bound.y o.y d.y))
        (slab_hi box.min_bound.z box.max_bound.z o.z d.z) =
        min t_max (box_exit box o d) := by
      rw [box_exit]; simp only [min_assoc]
    rw [e1, e2] at h3
    exact not_le.mp h3


/-- C3 (amended): for every valid box and every ray with nonzero direction
components, `AxisAlignedBoundingBox::hit` returns true exactly when the
three per-axis slab intervals mutually overlap (touching allowed,
`entry ≤ exit`) and the slab interval strictly straddles the query bounds
(`entry < t_max` and `t_min < exit`); whenever `t_min < t_max` and the slab
interval is non-degenerate (`entry ≠ exit`) this agrees with the spec's
narrowing slab test, but a degenerate corner graze (`entry = exit`) inside
`(t_min, t_max)` is a hit for the code and a miss for the narrowing test. -/
theorem aabb_hit_williams_vs_spec_slab (box : AxisAlignedBoundingBox) (o d : Vec3)
    (time t_min t_max : ℝ) (hv : box_valid box)
    (hdx : d.x ≠ 0) (hdy : d.y ≠ 0) (hdz : d.z ≠ 0) :
    (box.hit (Ray.new o d time) t_min t_max = true ↔
      box_entry box o d ≤ box_exit box o d ∧ box_entry box o d < t_max ∧
        t_min < box_exit box o d) ∧
    (t_min < t_max → box_entry box o d ≠ box_exit box o d →
      box.hit (Ray.new o d time) t_min t_max =
        spec_slab_hit box (Ray.new o d time) t_min t_max) := by
  refine ⟨aabb_hit_char box o d time t_min t_max hv hdx hdy hdz, ?_⟩
  intro htm hne
  have h1 := aabb_hit_char box o d time t_min t_max hv hdx hdy hdz
  have h2 := spec_slab_hit_char box o d time t_min t_max hv hdx hdy hdz
  have hiff : (box.hit (Ray.new o d time) t_min t_max = true) ↔
      (spec_slab_hit box (Ray.new o d time) t_min t_max = true) := by
    rw [h1, h2, max_lt_iff, lt_min_iff, lt_min_iff]
    constructor
    · rintro ⟨hle, ha, hb⟩
      exact ⟨⟨htm, hb⟩, ha, lt_of_le_of_ne hle hne⟩
    · rintro ⟨⟨-, hb⟩, ha, hc⟩
      exact ⟨hc.le, ha, hb⟩
  cases hb : box.hit (Ray.new o d time) t_min t_max with
  | false =>
      cases hs : spec_slab_hit box (Ray.new o d time) t_min t_max with
      | false => rfl
      | true => exact absurd (hiff.mpr hs) (by rw [hb]; simp)
  | true => rw [hb] at hiff; exact (hiff.mp rfl).symm

/-- Witness for C3 at a concrete valid box and ray. -/
theorem aabb_hit_williams_vs_spec_slab_witness :
    box_valid ⟨⟨0, 0, 0⟩, ⟨1, 1, 1⟩⟩ ∧ ((1 : ℝ) ≠ 0) ∧
    ((AxisAlignedBoundingBox.mk ⟨0, 0, 0⟩ ⟨1, 1, 1⟩).hit
        (Ray.new ⟨2, 1, 2⟩ ⟨-2, -1, -2⟩ 0) 0 10 = true ↔
      box_entry ⟨⟨0, 0, 0⟩, ⟨1, 1, 1⟩⟩ (⟨2, 1, 2⟩ : Vec3) ⟨-2, -1, -2⟩ ≤
          box_exit ⟨⟨0, 0, 0⟩, ⟨1, 1, 1⟩⟩ (⟨2, 1, 2⟩ : Vec3) ⟨-2, -1, -2⟩ ∧
        box_entry ⟨⟨0, 0, 0⟩, ⟨1, 1, 1⟩⟩ (⟨2, 1, 2⟩ : Vec3) ⟨-2, -1, -2⟩ < 10 ∧
        (0 : ℝ) < box_exit ⟨⟨0, 0, 0⟩, ⟨1, 1, 1⟩⟩ (⟨2, 1, 2⟩ : Vec3) ⟨-2, -1, -2⟩) := by
  refine ⟨by rw [box_valid]; norm_num, by norm_num, ?_⟩
  exact (aabb_hit_williams_vs_spec_slab ⟨⟨0, 0, 0⟩, ⟨1, 1, 1⟩⟩ ⟨2, 1, 2⟩
    ⟨-2, -1, -2⟩ 0 0 10 (by rw [box_valid]; norm_num) (by norm_num)
    (by norm_num) (by norm_num)).1

/-- C3 (counterexample): a ray grazing exactly the edge of the unit box
(slab entry = slab exit = 1, strictly inside the query interval [0, 10])
is a hit for the source's Williams test but a miss for the spec's narrowing
slab test, so the claimed equivalence with the narrowing description fails. -/
theorem aabb_hit_not_spec_slab_counterexample :
    (AxisAlignedBoundingBox.mk ⟨0, 0, 0⟩ ⟨1, 1, 1⟩).hit
        (Ray.new ⟨0, -1, 0⟩ ⟨1, 1, 1/4⟩ 0) 0 10 = true ∧
    spec_slab_hit (AxisAlignedBoundingBox.mk ⟨0, 0, 0⟩ ⟨1, 1, 1⟩)
        (Ray.new ⟨0, -1, 0⟩ ⟨1, 1, 1/4⟩ 0) 0 10 = false := by
  constructor
  · have hsx : (Ray.new (Vec3.mk 0 (-1) 0) ⟨1, 1, 1/4⟩ 0).signX = false := by
      rw [Ray.new_signX]; simp only [decide_eq_false_iff_not, not_lt]; norm_num
    have hsy : (Ray.new (Vec3.mk 0 (-1) 0) ⟨1, 1, 1/4⟩ 0).signY = false := by
      rw [Ray.new_signY]; simp only [decide_eq_false_iff_not, not_lt]; norm_num
    have hsz : (Ray.new (Vec3.mk 0 (-1) 0) ⟨1, 1, 1/4⟩ 0).signZ = false := by
      rw [Ray.new_signZ]; simp only [decide_eq_false_iff_not, not_lt]; norm_num
    rw [AxisAlignedBoundingBox.hit]
    simp only [hsx, hsy, hsz, Ray.new_origin, Ray.new_invert,
      AxisAlignedBoundingBox.bounds, Bool.not_false, if_true, if_false,
      Bool.false_eq_true, Bool.true_eq_false, Vec3.mk_x, Vec3.mk_y, Vec3.mk_z]
    norm_num
  · rw [spec_slab_hit]
    simp only [Ray.new_direction, Ray.new_origin, Vec3.mk_x, Vec3.mk_y, Vec3.mk_z]
    norm_num

/-- C4: `Sphere::hit` solves the quadratic with `a = dot(dir,dir)`,
`b = dot(oc,dir)`, `c = dot(oc,oc) - r²`; a non-positive discriminant is a
miss; a ray starting at distance `d > r` from the center and aimed at the
center (unit direction toward the center) reports a hit at the first root
`t = d - r` strictly inside `(t_min, t_max)`, with normal
`(hit_point - center)/radius`, a unit vector parallel to the hit point
offset. -/
theorem sphere_hit_roundtrip (center u_dir : Vec3) (radius dist time t_min t_max : ℝ)
    (material : Material)
    (hu : dot u_dir u_dir = 1) (hr : 0 < radius) (hrd : radius < dist)
    (h1 : t_min < dist - radius) (h2 : dist - radius < t_max) :
    (∀ (o2 d2 : Vec3) (time2 a b : ℝ),
      dot (o2 - center) d2 * dot (o2 - center) d2 -
        dot d2 d2 * (dot (o2 - center) (o2 - center) - radius * radius) ≤ 0 →
      sphere_hit center radius material (Ray.new o2 d2 time2) a b = none) ∧
    ∃ rec, sphere_hit center radius material
        (Ray.new (center + dist * u_dir) (-u_dir) time) t_min t_max = some rec ∧
      rec.t = dist - radius ∧
      rec.normal = u_dir ∧
      dot rec.normal rec.normal = 1 ∧
      rec.hit_point - center = radius * u_dir := by
  have hrne : radius ≠ 0 := ne_of_gt hr
  have hb : dot ((center + dist * u_dir) - center) (-u_dir) = -dist := by
    simp only [dot, Vec3.add_x, Vec3.add_y, Vec3.add_z, Vec3.sub_x, Vec3.sub_y,
      Vec3.sub_z, Vec3.smul_x, Vec3.smul_y, Vec3.smul_z, Vec3.neg_x, Vec3.neg_y,
      Vec3.neg_z]
    simp only [dot] at hu
    linear_combination (-dist) * hu
  have ha : dot (-u_dir) (-u_dir) = 1 := by
    simp only [dot, Vec3.neg_x, Vec3.neg_y, Vec3.neg_z]
    simp only [dot] at hu
    linear_combination hu
  have hc : dot ((center + dist * u_dir) - center) ((center + dist * u_dir) - center)
      = dist * dist := by
    simp only [dot, Vec3.add_x, Vec3.add_y, Vec3.add_z, Vec3.sub_x, Vec3.sub_y,
      Vec3.sub_z, Vec3.smul_x, Vec3.smul_y, Vec3.smul_z]
    simp only [dot] at hu
    linear_combination (dist * dist) * hu
  have hpoint : (Ray.new (center + dist * u_dir) (-u_dir) time).point_at_param
      (dist - radius) - center = radius * u_dir := by
    rw [Ray.point_at_param, Ray.new_origin, Ray.new_direction, Vec3.ext_iff]
    refine ⟨?_, ?_, ?_⟩ <;>
      simp only [Vec3.add_x, Vec3.add_y, Vec3.add_z, Vec3.sub_x, Vec3.sub_y,
        Vec3.sub_z, Vec3.smul_x, Vec3.smul_y, Vec3.smul_z, Vec3.neg_x, Vec3.neg_y,
        Vec3.neg_z] <;> ring
  have hnormal : ((Ray.new (center + dist * u_dir) (-u_dir) time).point_at_param
      (dist - radius) - center) / radius = u_dir := by
    rw [show ((Ray.new (center + dist * u_dir) (-u_dir) time).point_at_param
        (dist - radius) - center) = radius * u_dir from hpoint, Vec3.ext_iff]
    refine ⟨?_, ?_, ?_⟩ <;>
      simp only [Vec3.div_x, Vec3.div_y, Vec3.div_z, Vec3.smul_x, Vec3.smul_y,
        Vec3.smul_z] <;> field_simp
  constructor
  · intro o2 d2 time2 a b hdisc
    rw [sphere_hit_eq]
    simp only [Ray.new_origin, Ray.new_direction]
    rw [if_neg (not_lt.mpr hdisc)]
  · rw [sphere_hit_eq]
    simp only [Ray.new_origin, Ray.new_direction]
    rw [hb, ha, hc]
    rw [show -dist * -dist - 1 * (dist * dist - radius * radius) = radius ^ 2 by
      ring]
    rw [Real.sqrt_sq hr.le]
    rw [show (- -dist - radius) / 1 = dist - radius by ring]
    rw [if_pos (pow_pos hr 2), if_pos ⟨h2, h1⟩]
    refine ⟨_, rfl, rfl, hnormal, ?_, hpoint⟩
    have hgoal : dot (((Ray.new (center + dist * u_dir) (-u_dir)
          time).point_at_param (dist - radius) - center) / radius)
        (((Ray.new (center + dist * u_dir) (-u_dir)
          time).point_at_param (dist - radius) - center) / radius) = 1 := by
      rw [hnormal]; exact hu
    exact hgoal

/-- Witness for C4 at a concrete sphere and ray: unit sphere at the origin,
ray from distance 3 along the x axis aimed at the center. -/
theorem sphere_hit_roundtrip_witness :
    dot ⟨1, 0, 0⟩ ⟨1, 0, 0⟩ = 1 ∧ (0 : ℝ) < 1 ∧ (1 : ℝ) < 3 ∧
    ((1 : ℝ) / 1000 < 3 - 1) ∧ ((3 : ℝ) - 1 < 1000) ∧
    ((∀ (o2 d2 : Vec3) (time2 a b : ℝ),
      dot (o2 - ⟨0, 0, 0⟩) d2 * dot (o2 - ⟨0, 0, 0⟩) d2 -
        dot d2 d2 * (dot (o2 - ⟨0, 0, 0⟩) (o2 - ⟨0, 0, 0⟩) - 1 * 1) ≤ 0 →
      sphere_hit ⟨0, 0, 0⟩ 1 (Material.dielectric (3/2)) (Ray.new o2 d2 time2)
        a b = none) ∧
    ∃ rec, sphere_hit ⟨0, 0, 0⟩ 1 (Material.dielectric (3/2))
        (Ray.new ((⟨0, 0, 0⟩ : Vec3) + (3 : ℝ) * (⟨1, 0, 0⟩ : Vec3))
          (-(⟨1, 0, 0⟩ : Vec3)) 0) (1/1000) 1000 = some rec ∧
      rec.t = 3 - 1 ∧
      rec.normal = ⟨1, 0, 0⟩ ∧
      dot rec.normal rec.normal = 1 ∧
      rec.hit_point - ⟨0, 0, 0⟩ = (1 : ℝ) * (⟨1, 0, 0⟩ : Vec3)) := by
  refine ⟨by simp [dot], by norm_num, by norm_num, by norm_num, by norm_num, ?_⟩
  exact sphere_hit_roundtrip ⟨0, 0, 0⟩ ⟨1, 0, 0⟩ 1 3 0 (1/1000) 1000
    (Material.dielectric (3/2)) (by simp [dot]) (by norm_num) (by norm_num)
    (by norm_num) (by norm_num)


theorem opt_min_t_none_left (b : Option ℝ) : opt_min_t none b = b := rfl

theorem opt_min_t_none_right (a : Option ℝ) : opt_min_t a none = a := by
  cases a <;> rfl

theorem opt_min_t_left_comm (a b c : Option ℝ) :
    opt_min_t a (opt_min_t b c) = opt_min_t b (opt_min_t a c) := by
  cases a <;> cases b <;> cases c <;> simp [opt_min_t, min_left_comm, min_comm]

theorem opt_min_t_some_le (v : ℝ) (x : Option ℝ) (w : ℝ)
    (h : opt_min_t (some v) x = some w) : w ≤ v := by
  cases x with
  | none => rw [opt_min_t] at h; cases h; exact le_refl _
  | some u =>
      rw [opt_min_t] at h
      cases h
      exact min_le_left _ _

theorem opt_min_t_some_ne_none (v : ℝ) (x : Option ℝ) :
    opt_min_t (some v) x ≠ none := by
  cases x <;> simp [opt_min_t]

theorem opt_min_t_ge_absorb {v t : ℝ} (htv : v ≤ t) (b : Option ℝ) :
    opt_min_t (some v) (opt_min_t (some t) b) = opt_min_t (some v) b := by
  cases b with
  | none => simp [opt_min_t, min_eq_left htv]
  | some u =>
      simp only [opt_min_t, Option.some.injEq]
      rw [← min_assoc, min_eq_left htv]

theorem opt_min_t_absorb_right {c : ℝ} {x : Option ℝ} {w : ℝ} (hx : x = some w)
    (hw : w ≤ c) : opt_min_t (some c) x = x := by
  subst hx
  simp [opt_min_t, min_eq_right hw]

theorem list_opt_min_nil (a b : ℝ) : list_opt_min [] a b = none := rfl

theorem list_opt_min_cons (t : ℝ) (ts : List ℝ) (a b : ℝ) :
    list_opt_min (t :: ts) a b =
      if a < t ∧ t < b then opt_min_t (some t) (list_opt_min ts a b)
      else list_opt_min ts a b := rfl

theorem list_opt_min_append (l1 l2 : List ℝ) (a b : ℝ) :
    list_opt_min (l1 ++ l2) a b =
      opt_min_t (list_opt_min l1 a b) (list_opt_min l2 a b) := by
  induction l1 with
  | nil => rfl
  | cons t ts ih =>
      rw [List.cons_append, list_opt_min_cons, list_opt_min_cons, ih]
      split_ifs with h
      · cases hA : list_opt_min ts a b <;> cases hB : list_opt_min l2 a b <;>
          simp [opt_min_t, min_assoc]
      · rfl

theorem list_opt_min_some_bounds (ts : List ℝ) (a b v : ℝ)
    (h : list_opt_min ts a b = some v) : a < v ∧ v < b := by
  induction ts generalizing v with
  | nil => cases h
  | cons t ts ih =>
      rw [list_opt_min_cons] at h
      split_ifs at h with ht
      · cases hX : list_opt_min ts a b with
        | none => rw [hX, opt_min_t_none_right] at h; cases h; exact ht
        | some u =>
            rw [hX] at h
            simp only [opt_min_t, Option.some.injEq] at h
            rcases le_total t u with hle | hle
            · rw [min_eq_left hle] at h; subst h; exact ht
            · rw [min_eq_right hle] at h; subst h; exact ih u hX
      · exact ih v h

theorem list_opt_min_none_iff (ts : List ℝ) (a b : ℝ) :
    list_opt_min ts a b = none ↔ ∀ t ∈ ts, ¬(a < t ∧ t < b) := by
  induction ts with
  | nil => simp [list_opt_min_nil]
  | cons t ts ih =>
      rw [list_opt_min_cons]
      split_ifs with h
      · simp only [opt_min_t_some_ne_none, false_iff]
        intro hall
        exact hall t (List.mem_cons_self _ _) h
      · simp only [ih, List.mem_cons]
        constructor
        · intro hall u hu
          rcases hu with rfl | hu
          · exact h
          · exact hall u hu
        · intro hall u hu
          exact hall u (Or.inr hu)

theorem list_opt_min_cut (ts : List ℝ) (a v c : ℝ) (hvc : v ≤ c) :
    opt_min_t (some v) (list_opt_min ts a v) =
      opt_min_t (some v) (list_opt_min ts a c) := by
  induction ts with
  | nil => rfl
  | cons t ts ih =>
      rw [list_opt_min_cons, list_opt_min_cons]
      by_cases h1 : a < t ∧ t < v
      · rw [if_pos h1, if_pos ⟨h1.1, lt_of_lt_of_le h1.2 hvc⟩,
          opt_min_t_left_comm (some v), opt_min_t_left_comm (some v), ih]
      · by_cases h2 : a < t ∧ t < c
        · have htv : v ≤ t := by
            rcases not_and_or.mp h1 with h | h
            · exact absurd h2.1 h
            · exact not_lt.mp h
          rw [if_neg h1, if_pos h2, opt_min_t_ge_absorb htv]
          exact ih
        · rw [if_neg h1, if_neg h2]
          exact ih


theorem in_box_surrounding_left (p : Vec3) (b1 b2 : AxisAlignedBoundingBox)
    (h : in_box p b1) : in_box p (calc_surrounding_box b1 b2) := by
  obtain ⟨h1, h2, h3, h4, h5, h6⟩ := h
  exact ⟨le_trans (min_le_left _ _) h1, le_trans h2 (le_max_left _ _),
    le_trans (min_le_left _ _) h3, le_trans h4 (le_max_left _ _),
    le_trans (min_le_left _ _) h5, le_trans h6 (le_max_left _ _)⟩

theorem in_box_surrounding_right (p : Vec3) (b1 b2 : AxisAlignedBoundingBox)
    (h : in_box p b2) : in_box p (calc_surrounding_box b1 b2) := by
  obtain ⟨h1, h2, h3, h4, h5, h6⟩ := h
  exact ⟨le_trans (min_le_right _ _) h1, le_trans h2 (le_max_right _ _),
    le_trans (min_le_right _ _) h3, le_trans h4 (le_max_right _ _),
    le_trans (min_le_right _ _) h5, le_trans h6 (le_max_right _ _)⟩

set_option maxHeartbeats 1600000 in
theorem sphere_root_in_box (center : Vec3) (radius : ℝ) (o d : Vec3)
    (time temp : ℝ) (hdx : d.x ≠ 0) (hr : 0 < radius)
    (hdisc : dot (o - center) d * dot (o - center) d -
      dot d d * (dot (o - center) (o - center) - radius * radius) > 0)
    (htemp : temp = (-dot (o - center) d -
        Real.sqrt (dot (o - center) d * dot (o - center) d -
          dot d d * (dot (o - center) (o - center) - radius * radius))) /
          dot d d ∨
      temp = (-dot (o - center) d +
        Real.sqrt (dot (o - center) d * dot (o - center) d -
          dot d d * (dot (o - center) (o - center) - radius * radius))) /
          dot d d) :
    in_box ((Ray.new o d time).point_at_param temp)
      ⟨center - radius, center + radius⟩ := by
  have hApos : 0 < dot d d := by
    simp only [dot]
    nlinarith [mul_self_pos.mpr hdx, mul_self_nonneg d.y, mul_self_nonneg d.z]
  have hA0 : dot d d ≠ 0 := ne_of_gt hApos
  have hexpand : dot ((Ray.new o d time).point_at_param temp - center)
      ((Ray.new o d time).point_at_param temp - center) =
      dot (o - center) (o - center) + 2 * temp * dot (o - center) d +
        temp ^ 2 * dot d d := by
    rw [Ray.point_at_param, Ray.new_origin, Ray.new_direction]
    simp only [dot, Vec3.add_x, Vec3.add_y, Vec3.add_z, Vec3.sub_x, Vec3.sub_y,
      Vec3.sub_z, Vec3.smul_x, Vec3.smul_y, Vec3.smul_z]
    ring
  set A := dot d d with hA
  set B := dot (o - center) d with hB
  set C := dot (o - center) (o - center) with hC
  set s := Real.sqrt (B * B - A * (C - radius * radius)) with hsdef
  have hs : s ^ 2 = B * B - A * (C - radius * radius) := Real.sq_sqrt hdisc.le
  have hsq : (A * temp + B) ^ 2 = B * B - A * (C - radius * radius) := by
    rcases htemp with h | h <;> subst h <;>
      rw [mul_comm A, div_mul_cancel₀ _ hA0] <;>
      · ring_nf
        ring_nf at hs
        linarith [hs]
  have hpc : dot ((Ray.new o d time).point_at_param temp - center)
      ((Ray.new o d time).point_at_param temp - center) = radius * radius := by
    rw [hexpand]
    have h2 : A * (C + 2 * temp * B + temp ^ 2 * A - radius * radius) = 0 := by
      linear_combination hsq
    have h3 := (mul_eq_zero.mp h2).resolve_left hA0
    linarith
  obtain ⟨p, hp⟩ : ∃ p, (Ray.new o d time).point_at_param temp = p := ⟨_, rfl⟩
  rw [hp] at hpc
  rw [hp]
  simp only [dot, Vec3.sub_x, Vec3.sub_y, Vec3.sub_z] at hpc
  rw [in_box]
  simp only [Vec3.sub_scalar_x, Vec3.sub_scalar_y, Vec3.sub_scalar_z,
    Vec3.add_scalar_x, Vec3.add_scalar_y, Vec3.add_scalar_z]
  refine ⟨?_, ?_, ?_, ?_, ?_, ?_⟩
  · nlinarith [hpc, sq_nonneg (p.x - center.x + radius), sq_nonneg (p.y - center.y),
      sq_nonneg (p.z - center.z), hr]
  · nlinarith [hpc, sq_nonneg (p.x - center.x - radius), sq_nonneg (p.y - center.y),
      sq_nonneg (p.z - center.z), hr]
  · nlinarith [hpc, sq_nonneg (p.y - center.y + radius), sq_nonneg (p.x - center.x),
      sq_nonneg (p.z - center.z), hr]
  · nlinarith [hpc, sq_nonneg (p.y - center.y - radius), sq_nonneg (p.x - center.x),
      sq_nonneg (p.z - center.z), hr]
  · nlinarith [hpc, sq_nonneg (p.z - center.z + radius), sq_nonneg (p.x - center.x),
      sq_nonneg (p.y - center.y), hr]
  · nlinarith [hpc, sq_nonneg (p.z - center.z - radius), sq_nonneg (p.x - center.x),
      sq_nonneg (p.y - center.y), hr]

theorem sphere_hit_t (center : Vec3) (radius : ℝ) (material : Material)
    (o d : Vec3) (time t_min t_max : ℝ) :
    Option.map HitRecord.t
      (Hitable.hit (.sphere center radius material) (Ray.new o d time) t_min t_max) =
      if 0 < sphere_disc center radius o d then
        if sphere_root1 center radius o d < t_max ∧ t_min < sphere_root1 center radius o d
        then some (sphere_root1 center radius o d)
        else if sphere_root2 center radius o d < t_max ∧ t_min < sphere_root2 center radius o d
        then some (sphere_root2 center radius o d)
        else none
      else none := by
  rw [Hitable.hit, sphere_hit_eq]
  simp only [Ray.new_origin, Ray.new_direction, sphere_root1, sphere_root2,
    sphere_disc, gt_iff_lt]
  split_ifs <;> rfl

theorem sphere_root1_le_root2 (center : Vec3) (radius : ℝ) (o d : Vec3)
    (hdd : 0 < dot d d) :
    sphere_root1 center radius o d ≤ sphere_root2 center radius o d := by
  have hs := Real.sqrt_nonneg (sphere_disc center radius o d)
  rw [sphere_root1, sphere_root2]
  exact (div_le_div_iff_of_pos_right hdd).mpr (by linarith)

theorem sphere_hit_char (center : Vec3) (radius : ℝ) (material : Material)
    (o d : Vec3) (time : ℝ) (hdd : 0 < dot d d) :
    hit_char (Ray.new o d time) (.sphere center radius material)
      (sphere_roots center radius o d) := by
  intro a b
  rw [sphere_hit_t, sphere_roots]
  have h12 := sphere_root1_le_root2 center radius o d hdd
  by_cases hdisc : 0 < sphere_disc center radius o d
  · rw [if_pos hdisc, if_pos hdisc,
      list_opt_min_cons, list_opt_min_cons, list_opt_min_nil, opt_min_t_none_right]
    by_cases h1 : a < sphere_root1 center radius o d ∧ sphere_root1 center radius o d < b
    · rw [if_pos ⟨h1.2, h1.1⟩, if_pos h1]
      by_cases h2 : a < sphere_root2 center radius o d ∧ sphere_root2 center radius o d < b
      · rw [if_pos h2]
        simp [opt_min_t, min_eq_left h12]
      · rw [if_neg h2, opt_min_t_none_right]
    · rw [if_neg (fun hc => h1 ⟨hc.2, hc.1⟩), if_neg h1]
      by_cases h2 : a < sphere_root2 center radius o d ∧ sphere_root2 center radius o d < b
      · rw [if_pos ⟨h2.2, h2.1⟩, if_pos h2]
      · rw [if_neg (fun hc => h2 ⟨hc.2, hc.1⟩), if_neg h2]
  · rw [if_neg hdisc, if_neg hdisc, list_opt_min_nil]

theorem flip_hit_t (h : Hitable) (ray : Ray) (t_min t_max : ℝ) :
    Option.map HitRecord.t (Hitable.hit (.flipNormals h) ray t_min t_max) =
      Option.map HitRecord.t (Hitable.hit h ray t_min t_max) := by
  rw [Hitable.hit]
  cases Hitable.hit h ray t_min t_max <;> rfl

theorem flip_hit_char (h : Hitable) (R : Ray) (ts : List ℝ)
    (hc : hit_char R h ts) : hit_char R (.flipNormals h) ts := by
  intro a b
  rw [flip_hit_t]
  exact hc a b

theorem forall2_exists_list {α : Type} (P : Hitable → List α → Prop) :
    ∀ xs : List Hitable, (∀ x ∈ xs, ∃ ts, P x ts) →
      ∃ tss, List.Forall₂ P xs tss := by
  intro xs
  induction xs with
  | nil => exact fun _ => ⟨[], List.Forall₂.nil⟩
  | cons x rest ih =>
      intro hall
      obtain ⟨ts, hts⟩ := hall x (List.mem_cons_self _ _)
      obtain ⟨tss, htss⟩ := ih (fun y hy => hall y (List.mem_cons_of_mem _ hy))
      exact ⟨ts :: tss, List.Forall₂.cons hts htss⟩

theorem fold_hit_char (R : Ray) (a : ℝ) :
    ∀ (xs : List Hitable) (tss : List (List ℝ)),
      List.Forall₂ (hit_char R) xs tss →
      ∀ (c : ℝ) (best : Option HitRecord),
        Option.map HitRecord.t (hitable_list_hit_fold xs R a c best) =
          opt_or (list_opt_min tss.flatten a c) (Option.map HitRecord.t best) := by
  intro xs
  induction xs with
  | nil =>
      intro tss hf c best
      cases hf
      rw [hitable_list_hit_fold, List.flatten_nil, list_opt_min_nil, opt_or]
  | cons x rest ih =>
      intro tss hf c best
      cases hf with
      | cons hx hrest =>
        next ts1 tss1 =>
          rw [hitable_list_hit_fold]
          cases hhit : Hitable.hit x R a c with
          | some rec =>
              have ht1 : list_opt_min ts1 a c = some rec.t := by
                have h := hx a c
                rw [hhit] at h
                exact h.symm ▸ rfl
              have hb := list_opt_min_some_bounds ts1 a c rec.t ht1
              rw [ih tss1 hrest rec.t (some rec), List.flatten_cons,
                list_opt_min_append, ht1]
              rw [← list_opt_min_cut tss1.flatten a rec.t c hb.2.le]
              cases hrec : list_opt_min tss1.flatten a rec.t with
              | some v =>
                  have hv := list_opt_min_some_bounds tss1.flatten a rec.t v hrec
                  simp [opt_or, opt_min_t, min_eq_right hv.2.le]
              | none =>
                  simp [opt_or, opt_min_t, Option.map]
          | none =>
              have ht1 : list_opt_min ts1 a c = none := by
                have h := hx a c
                rw [hhit] at h
                exact h.symm
              rw [ih tss1 hrest c best, List.flatten_cons, list_opt_min_append,
                ht1, opt_min_t_none_left]

theorem hitable_list_hit_char (R : Ray) (xs : List Hitable)
    (tss : List (List ℝ)) (hf : List.Forall₂ (hit_char R) xs tss) :
    hit_char R (.hitableList xs) tss.flatten := by
  intro a b
  rw [Hitable.hit, fold_hit_char R a xs tss hf b none]
  cases h : list_opt_min tss.flatten a b <;> simp [opt_or, h]

theorem hitable_list_box_fold_none (rest : List Hitable) (s e : ℝ) :
    hitable_list_box_fold rest s e none = none := by
  cases rest <;> rw [hitable_list_box_fold]

theorem fold_box_sub (s e : ℝ) :
    ∀ (rest : List Hitable) (acc B : AxisAlignedBoundingBox),
      hitable_list_box_fold rest s e (some acc) = some B →
      (∀ p, in_box p acc → in_box p B) ∧
      ∀ x ∈ rest, ∃ Bx, x.bounding_box s e = some Bx ∧
        ∀ p, in_box p Bx → in_box p B := by
  intro rest
  induction rest with
  | nil =>
      intro acc B h
      rw [hitable_list_box_fold] at h
      cases h
      exact ⟨fun p hp => hp, by simp⟩
  | cons x rest ih =>
      intro acc B h
      rw [hitable_list_box_fold] at h
      cases hx : Hitable.bounding_box x s e with
      | none => rw [hx] at h; cases h
      | some bx =>
          rw [hx] at h
          obtain ⟨hacc, hrest⟩ := ih (calc_surrounding_box acc bx) B h
          refine ⟨fun p hp => hacc p (in_box_surrounding_left p acc bx hp), ?_⟩
          intro y hy
          rcases List.mem_cons.mp hy with rfl | hy
          · exact ⟨bx, hx, fun p hp => hacc p (in_box_surrounding_right p acc bx hp)⟩
          · exact hrest y hy

theorem list_box_sub (xs : List Hitable) (s e : ℝ) (B : AxisAlignedBoundingBox)
    (hbox : Hitable.bounding_box (.hitableList xs) s e = some B) :
    ∀ x ∈ xs, ∃ Bx, Hitable.bounding_box x s e = some Bx ∧
      ∀ p, in_box p Bx → in_box p B := by
  cases xs with
  | nil => simp
  | cons x rest =>
      rw [Hitable.bounding_box] at hbox
      intro y hy
      cases hx : Hitable.bounding_box x s e with
      | none => rw [hx, hitable_list_box_fold_none] at hbox; cases hbox
      | some bx =>
          rw [hx] at hbox
          obtain ⟨hacc, hrest⟩ := fold_box_sub s e rest bx B hbox
          rcases List.mem_cons.mp hy with rfl | hy
          · exact ⟨bx, hx, hacc⟩
          · exact hrest y hy

theorem surrounding_valid_left (b1 b2 : AxisAlignedBoundingBox)
    (h : box_valid b1) : box_valid (calc_surrounding_box b1 b2) := by
  obtain ⟨h1, h2, h3⟩ := h
  rw [calc_surrounding_box, box_valid]
  simp only [Vec3.mk_x, Vec3.mk_y, Vec3.mk_z]
  exact ⟨le_trans (min_le_left _ _) (le_trans h1 (le_max_left _ _)),
    le_trans (min_le_left _ _) (le_trans h2 (le_max_left _ _)),
    le_trans (min_le_left _ _) (le_trans h3 (le_max_left _ _))⟩

theorem fold_box_valid (s e : ℝ) :
    ∀ (rest : List Hitable) (acc B : AxisAlignedBoundingBox),
      box_valid acc → hitable_list_box_fold rest s e (some acc) = some B →
      box_valid B := by
  intro rest
  induction rest with
  | nil =>
      intro acc B hv h
      rw [hitable_list_box_fold] at h
      cases h
      exact hv
  | cons x rest ih =>
      intro acc B hv h
      rw [hitable_list_box_fold] at h
      cases hx : Hitable.bounding_box x s e with
      | none => rw [hx] at h; cases h
      | some bx =>
          rw [hx] at h
          exact ih (calc_surrounding_box acc bx) B (surrounding_valid_left acc bx hv) h

theorem good_box_valid :
    ∀ (T : Hitable), GoodTree T →
      ∀ B, Hitable.bounding_box T 0 0 = some B → box_valid B := by
  intro T hT
  induction hT with
  | sphere center radius material hr =>
      intro B hB
      rw [Hitable.bounding_box] at hB
      injection hB with hB
      subst hB
      rw [box_valid]
      simp only [Vec3.sub_scalar_x, Vec3.sub_scalar_y, Vec3.sub_scalar_z,
        Vec3.add_scalar_x, Vec3.add_scalar_y, Vec3.add_scalar_z]
      exact ⟨by linarith, by linarith, by linarith⟩
  | flip h hg ih =>
      intro B hB
      rw [Hitable.bounding_box] at hB
      exact ih B hB
  | list xs hg ih =>
      intro B hB
      cases xs with
      | nil => rw [Hitable.bounding_box] at hB; cases hB
      | cons x rest =>
          rw [Hitable.bounding_box] at hB
          cases hx : Hitable.bounding_box x 0 0 with
          | none => rw [hx, hitable_list_box_fold_none] at hB; cases hB
          | some bx =>
              rw [hx] at hB
              exact fold_box_valid 0 0 rest bx B
                (ih x (List.mem_cons_self _ _) bx hx) hB
  | node left right lb rb hl hr hlb hrb ihl ihr =>
      intro B hB
      rw [Hitable.bounding_box] at hB
      injection hB with hB
      subst hB
      exact surrounding_valid_left lb rb (ihl lb hlb)

theorem slab_between (lo hi o dv t : ℝ) (hd : dv ≠ 0)
    (h1 : lo ≤ o + t * dv) (h2 : o + t * dv ≤ hi) :
    slab_lo lo hi o dv ≤ t ∧ t ≤ slab_hi lo hi o dv := by
  rw [slab_lo, slab_hi]
  rcases hd.lt_or_lt with hneg | hpos
  · constructor
    · refine le_trans (min_le_right _ _) ?_
      rw [div_le_iff_of_neg hneg]
      linarith
    · refine le_trans ?_ (le_max_left _ _)
      rw [le_div_iff_of_neg hneg]
      linarith
  · constructor
    · refine le_trans (min_le_left _ _) ?_
      rw [div_le_iff₀ hpos]
      linarith
    · refine le_trans ?_ (le_max_right _ _)
      rw [le_div_iff₀ hpos]
      linarith

theorem point_at_param_components (o d : Vec3) (time t : ℝ) :
    (Ray.new o d time).point_at_param t =
      ⟨o.x + t * d.x, o.y + t * d.y, o.z + t * d.z⟩ := by
  rw [Ray.point_at_param, Ray.new_origin, Ray.new_direction]
  rfl

theorem aabb_hit_of_point (box : AxisAlignedBoundingBox) (o d : Vec3)
    (time t_min t_max t : ℝ) (hv : box_valid box)
    (hdx : d.x ≠ 0) (hdy : d.y ≠ 0) (hdz : d.z ≠ 0)
    (hp : in_box ((Ray.new o d time).point_at_param t) box)
    (h1 : t_min < t) (h2 : t < t_max) :
    box.hit (Ray.new o d time) t_min t_max = true := by
  rw [point_at_param_components, in_box] at hp
  simp only [Vec3.mk_x, Vec3.mk_y, Vec3.mk_z] at hp
  obtain ⟨hx1, hx2, hy1, hy2, hz1, hz2⟩ := hp
  have hsx := slab_between box.min_bound.x box.max_bound.x o.x d.x t hdx hx1 hx2
  have hsy := slab_between box.min_bound.y box.max_bound.y o.y d.y t hdy hy1 hy2
  have hsz := slab_between box.min_bound.z box.max_bound.z o.z d.z t hdz hz1 hz2
  have hentry : box_entry box o d ≤ t := by
    rw [box_entry]
    exact max_le (max_le hsx.1 hsy.1) hsz.1
  have hexit : t ≤ box_exit box o d := by
    rw [box_exit]
    exact le_min (le_min hsx.2 hsy.2) hsz.2
  rw [aabb_hit_char box o d time t_min t_max hv hdx hdy hdz]
  exact ⟨le_trans hentry hexit, lt_of_le_of_lt hentry h2, lt_of_lt_of_le h1 hexit⟩

theorem hit_bounds_in_box (o d : Vec3) (time : ℝ) (hdx : d.x ≠ 0) :
    ∀ (T : Hitable), GoodTree T →
      ∀ (t_min t_max : ℝ) (rec : HitRecord),
        Hitable.hit T (Ray.new o d time) t_min t_max = some rec →
        (t_min < rec.t ∧ rec.t < t_max) ∧
        ∀ B, Hitable.bounding_box T 0 0 = some B →
          in_box ((Ray.new o d time).point_at_param rec.t) B := by
  have hdd : 0 < dot d d := by
    simp only [dot]
    nlinarith [mul_self_pos.mpr hdx, mul_self_nonneg d.y, mul_self_nonneg d.z]
  intro T hT
  induction hT with
  | sphere center radius material hr =>
      intro t_min t_max rec hhit
      rw [Hitable.hit, sphere_hit_eq] at hhit
      simp only [Ray.new_origin, Ray.new_direction] at hhit
      split_ifs at hhit with hdisc hr1 hr2
      · injection hhit with hhit
        subst hhit
        refine ⟨⟨hr1.2, hr1.1⟩, ?_⟩
        intro B hB
        rw [Hitable.bounding_box] at hB
        injection hB with hB
        subst hB
        exact sphere_root_in_box center radius o d time _ hdx hr hdisc (Or.inl rfl)
      · injection hhit with hhit
        subst hhit
        refine ⟨⟨hr2.2, hr2.1⟩, ?_⟩
        intro B hB
        rw [Hitable.bounding_box] at hB
        injection hB with hB
        subst hB
        exact sphere_root_in_box center radius o d time _ hdx hr hdisc (Or.inr rfl)
  | flip h hg ih =>
      intro t_min t_max rec hhit
      rw [Hitable.hit] at hhit
      cases hin : Hitable.hit h (Ray.new o d time) t_min t_max with
      | none => rw [hin] at hhit; cases hhit
      | some r =>
          rw [hin] at hhit
          injection hhit with hhit
          subst hhit
          obtain ⟨hb, hbox⟩ := ih t_min t_max r hin
          refine ⟨hb, ?_⟩
          intro B hB
          rw [Hitable.bounding_box] at hB
          exact hbox B hB
  | list xs hg ih =>
      intro t_min t_max rec hhit
      rw [Hitable.hit] at hhit
      have hstep : ∀ x ∈ xs, ∀ (c : ℝ) (b : Option HitRecord),
          (c ≤ t_max ∧ ∀ r, b = some r →
            (t_min < r.t ∧ r.t < t_max) ∧
            ∀ B, Hitable.bounding_box (.hitableList xs) 0 0 = some B →
              in_box ((Ray.new o d time).point_at_param r.t) B) →
          ∀ r : HitRecord, Hitable.hit x (Ray.new o d time) t_min c = some r →
          (r.t ≤ t_max ∧ ∀ r2, some r = some r2 →
            (t_min < r2.t ∧ r2.t < t_max) ∧
            ∀ B, Hitable.bounding_box (.hitableList xs) 0 0 = some B →
              in_box ((Ray.new o d time).point_at_param r2.t) B) := by
        intro x hx c b hinv r hr
        obtain ⟨hbnd, hbox⟩ := ih x hx t_min c r hr
        have hrt : r.t < t_max := lt_of_lt_of_le hbnd.2 hinv.1
        refine ⟨hrt.le, ?_⟩
        intro r2 hr2
        injection hr2 with hr2
        subst hr2
        refine ⟨⟨hbnd.1, hrt⟩, ?_⟩
        intro B hB
        obtain ⟨Bx, hBx, hsub⟩ := list_box_sub xs 0 0 B hB x hx
        exact hsub _ (hbox Bx hBx)
      obtain ⟨c2, hc2⟩ := hitable_list_hit_fold_inv (Ray.new o d time) t_min
        (fun c b => c ≤ t_max ∧ ∀ r, b = some r →
          (t_min < r.t ∧ r.t < t_max) ∧
          ∀ B, Hitable.bounding_box (.hitableList xs) 0 0 = some B →
            in_box ((Ray.new o d time).point_at_param r.t) B)
        xs t_max none hstep ⟨le_refl _, fun r hr => by cases hr⟩
      rw [hhit] at hc2
      exact hc2.2 rec rfl
  | node left right lb rb hl hr hlb hrb ihl ihr =>
      intro t_min t_max rec hhit
      rw [Hitable.hit] at hhit
      split_ifs at hhit with hbox
      · cases heql : Hitable.hit left (Ray.new o d time) t_min t_max with
        | some lrec =>
            cases heqr : Hitable.hit right (Ray.new o d time) t_min t_max with
            | some rrec =>
                simp only [heql, heqr] at hhit
                split_ifs at hhit with hlt
                · injection hhit with hhit
                  subst hhit
                  obtain ⟨hb, hboxl⟩ := ihl t_min t_max lrec heql
                  refine ⟨hb, ?_⟩
                  intro B hB
                  rw [Hitable.bounding_box] at hB
                  injection hB with hB
                  subst hB
                  exact in_box_surrounding_left _ _ _ (hboxl lb hlb)
                · injection hhit with hhit
                  subst hhit
                  obtain ⟨hb, hboxr⟩ := ihr t_min t_max rrec heqr
                  refine ⟨hb, ?_⟩
                  intro B hB
                  rw [Hitable.bounding_box] at hB
                  injection hB with hB
                  subst hB
                  exact in_box_surrounding_right _ _ _ (hboxr rb hrb)
            | none =>
                simp only [heql, heqr] at hhit
                injection hhit with hhit
                subst hhit
                obtain ⟨hb, hboxl⟩ := ihl t_min t_max lrec heql
                refine ⟨hb, ?_⟩
                intro B hB
                rw [Hitable.bounding_box] at hB
                injection hB with hB
                subst hB
                exact in_box_surrounding_left _ _ _ (hboxl lb hlb)
        | none =>
            cases heqr : Hitable.hit right (Ray.new o d time) t_min t_max with
            | some rrec =>
                simp only [heql, heqr] at hhit
                injection hhit with hhit
                subst hhit
                obtain ⟨hb, hboxr⟩ := ihr t_min t_max rrec heqr
                refine ⟨hb, ?_⟩
                intro B hB
                rw [Hitable.bounding_box] at hB
                injection hB with hB
                subst hB
                exact in_box_surrounding_right _ _ _ (hboxr rb hrb)
            | none =>
                simp only [heql, heqr] at hhit
                cases hhit

theorem forall2_append {α β : Type} {P : α → β → Prop}
    {a c : List α} {b e : List β} (h1 : List.Forall₂ P a b)
    (h2 : List.Forall₂ P c e) : List.Forall₂ P (a ++ c) (b ++ e) := by
  induction h1 with
  | nil => exact h2
  | cons hx _ ih => exact List.Forall₂.cons hx ih

theorem bvh_node_hit_char (o d : Vec3) (time : ℝ)
    (hdx : d.x ≠ 0) (hdy : d.y ≠ 0) (hdz : d.z ≠ 0)
    (left right : Hitable) (lb rb : AxisAlignedBoundingBox)
    (hl : GoodTree left) (hr : GoodTree right)
    (hlb : Hitable.bounding_box left 0 0 = some lb)
    (hrb : Hitable.bounding_box right 0 0 = some rb)
    (ts1 ts2 : List ℝ)
    (hc1 : hit_char (Ray.new o d time) left ts1)
    (hc2 : hit_char (Ray.new o d time) right ts2) :
    hit_char (Ray.new o d time)
      (.bvhNode left right (calc_surrounding_box lb rb)) (ts1 ++ ts2) := by
  intro a b
  rw [Hitable.hit, list_opt_min_append]
  by_cases hbox : (calc_surrounding_box lb rb).hit (Ray.new o d time) a b = true
  · rw [if_pos hbox]
    cases heql : Hitable.hit left (Ray.new o d time) a b with
    | some lrec =>
        have h1 : list_opt_min ts1 a b = some lrec.t := by
          have h := hc1 a b
          rw [heql] at h
          exact h.symm ▸ rfl
        cases heqr : Hitable.hit right (Ray.new o d time) a b with
        | some rrec =>
            have h2 : list_opt_min ts2 a b = some rrec.t := by
              have h := hc2 a b
              rw [heqr] at h
              exact h.symm ▸ rfl
            simp only [heql, heqr]
            rw [h1, h2]
            by_cases hlt : lrec.t < rrec.t
            · rw [if_pos hlt]
              simp [opt_min_t, min_eq_left hlt.le]
            · rw [if_neg hlt]
              simp [opt_min_t, min_eq_right (not_lt.mp hlt)]
        | none =>
            have h2 : list_opt_min ts2 a b = none := by
              have h := hc2 a b
              rw [heqr] at h
              exact h.symm
            simp only [heql, heqr]
            rw [h1, h2, opt_min_t_none_right]
            rfl
    | none =>
        have h1 : list_opt_min ts1 a b = none := by
          have h := hc1 a b
          rw [heql] at h
          exact h.symm
        cases heqr : Hitable.hit right (Ray.new o d time) a b with
        | some rrec =>
            have h2 : list_opt_min ts2 a b = some rrec.t := by
              have h := hc2 a b
              rw [heqr] at h
              exact h.symm ▸ rfl
            simp only [heql, heqr]
            rw [h1, h2, opt_min_t_none_left]
            rfl
        | none =>
            have h2 : list_opt_min ts2 a b = none := by
              have h := hc2 a b
              rw [heqr] at h
              exact h.symm
            simp only [heql, heqr]
            rw [h1, h2]
            rfl
  · have hval : box_valid (calc_surrounding_box lb rb) :=
      surrounding_valid_left lb rb (good_box_valid left hl lb hlb)
    have hnone1 : list_opt_min ts1 a b = none := by
      cases heql : Hitable.hit left (Ray.new o d time) a b with
      | none =>
          have h := hc1 a b
          rw [heql] at h
          exact h.symm
      | some lrec =>
          exfalso
          obtain ⟨⟨hb1, hb2⟩, hboxmem⟩ :=
            hit_bounds_in_box o d time hdx left hl a b lrec heql
          exact hbox (aabb_hit_of_point _ o d time a b lrec.t hval hdx hdy hdz
            (in_box_surrounding_left _ _ _ (hboxmem lb hlb)) hb1 hb2)
    have hnone2 : list_opt_min ts2 a b = none := by
      cases heqr : Hitable.hit right (Ray.new o d time) a b with
      | none =>
          have h := hc2 a b
          rw [heqr] at h
          exact h.symm
      | some rrec =>
          exfalso
          obtain ⟨⟨hb1, hb2⟩, hboxmem⟩ :=
            hit_bounds_in_box o d time hdx right hr a b rrec heqr
          exact hbox (aabb_hit_of_point _ o d time a b rrec.t hval hdx hdy hdz
            (in_box_surrounding_right _ _ _ (hboxmem rb hrb)) hb1 hb2)
    rw [if_neg hbox, hnone1, hnone2]
    rfl

theorem good_tree_hit_char (o d : Vec3) (time : ℝ)
    (hdx : d.x ≠ 0) (hdy : d.y ≠ 0) (hdz : d.z ≠ 0) :
    ∀ (T : Hitable), GoodTree T →
      ∃ tss : List (List ℝ),
        List.Forall₂ (hit_char (Ray.new o d time)) (bvh_leaves T) tss ∧
        hit_char (Ray.new o d time) T tss.flatten := by
  have hdd : 0 < dot d d := by
    simp only [dot]
    nlinarith [mul_self_pos.mpr hdx, mul_self_nonneg d.y, mul_self_nonneg d.z]
  intro T hT
  induction hT with
  | sphere center radius material hr =>
      refine ⟨[sphere_roots center radius o d], ?_, ?_⟩
      · exact List.Forall₂.cons (sphere_hit_char center radius material o d time hdd)
          List.Forall₂.nil
      · simpa using sphere_hit_char center radius material o d time hdd
  | flip h hg ih =>
      obtain ⟨tss, hf, hc⟩ := ih
      refine ⟨[tss.flatten], ?_, ?_⟩
      · exact List.Forall₂.cons (flip_hit_char h _ _ hc) List.Forall₂.nil
      · simpa using flip_hit_char h _ _ hc
  | list xs hg ih =>
      have hx : ∀ x ∈ xs, ∃ ts, hit_char (Ray.new o d time) x ts := by
        intro x hxx
        obtain ⟨tss, -, hc⟩ := ih x hxx
        exact ⟨tss.flatten, hc⟩
      obtain ⟨tss0, hf0⟩ := forall2_exists_list _ xs hx
      refine ⟨[tss0.flatten], ?_, ?_⟩
      · exact List.Forall₂.cons (hitable_list_hit_char _ xs tss0 hf0) List.Forall₂.nil
      · simpa using hitable_list_hit_char _ xs tss0 hf0
  | node left right lb rb hl hr hlb hrb ihl ihr =>
      obtain ⟨ts1, hf1, hc1⟩ := ihl
      obtain ⟨ts2, hf2, hc2⟩ := ihr
      refine ⟨ts1 ++ ts2, ?_, ?_⟩
      · exact forall2_append hf1 hf2
      · rw [List.flatten_append]
        exact bvh_node_hit_char o d time hdx hdy hdz left right lb rb hl hr hlb hrb
          ts1.flatten ts2.flatten hc1 hc2

theorem demo_bvh_tree_good : GoodTree demo_bvh_tree :=
  GoodTree.node _ _ _ _
    (GoodTree.sphere _ _ _ one_pos) (GoodTree.sphere _ _ _ one_pos) rfl rfl

/-- C1 (amended): for every BVH tree whose leaves are positive-radius
spheres (possibly flipped or grouped in lists) and whose nodes carry the
cached surrounding box of their children, and for every ray with nonzero
direction components, `BvhNode::hit` over `[t_min, t_max]` reports a hit
exactly when exhaustively testing every leaf via `HitableList::hit` does,
and with the same hit parameter `t` (the nearest hit in the interval).
The unamended claim, over arbitrary scenes, is refuted by
`bvh_hit_not_list_hit_counterexample`: a rectangle hit exactly at `t_max`
is found by the exhaustive list (`XYRect::hit` accepts a closed interval)
but pruned by the BVH (`AxisAlignedBoundingBox::hit` demands
`t_min_xyz < t_max` strictly). -/
theorem bvh_hit_matches_list_hit (o d : Vec3) (time : ℝ)
    (hdx : d.x ≠ 0) (hdy : d.y ≠ 0) (hdz : d.z ≠ 0)
    (T : Hitable) (hT : GoodTree T) (t_min t_max : ℝ) :
    Option.map HitRecord.t (Hitable.hit T (Ray.new o d time) t_min t_max) =
      Option.map HitRecord.t
        (Hitable.hit (.hitableList (bvh_leaves T)) (Ray.new o d time) t_min t_max) := by
  obtain ⟨tss, hf, hc⟩ := good_tree_hit_char o d time hdx hdy hdz T hT
  rw [hc t_min t_max,
    hitable_list_hit_char (Ray.new o d time) (bvh_leaves T) tss hf t_min t_max]

/-- Witness for C1: the two-sphere BVH and a concrete ray with nonzero
direction components. -/
theorem bvh_hit_matches_list_hit_witness :
    ((-2 : ℝ) ≠ 0 ∧ (-1 : ℝ) ≠ 0 ∧ (-2 : ℝ) ≠ 0) ∧ GoodTree demo_bvh_tree ∧
    Option.map HitRecord.t
        (Hitable.hit demo_bvh_tree (Ray.new ⟨2, 1, 2⟩ ⟨-2, -1, -2⟩ 0) 0.00001 FLOAT_MAX) =
      Option.map HitRecord.t
        (Hitable.hit (.hitableList (bvh_leaves demo_bvh_tree))
          (Ray.new ⟨2, 1, 2⟩ ⟨-2, -1, -2⟩ 0) 0.00001 FLOAT_MAX) :=
  ⟨⟨by norm_num, by norm_num, by norm_num⟩, demo_bvh_tree_good,
    bvh_hit_matches_list_hit ⟨2, 1, 2⟩ ⟨-2, -1, -2⟩ 0 (by norm_num) (by norm_num)
      (by norm_num) demo_bvh_tree demo_bvh_tree_good 0.00001 FLOAT_MAX⟩

/-- C1 (counterexample to the unamended claim): a unit rectangle at
`z = 1` hit exactly at `t = t_max = 1`.  `XYRect::hit` accepts the closed
interval (`t > t_max` fails), so the exhaustive `HitableList::hit` over
the single primitive reports the hit; but the BVH node built over it
(cached box = the rectangle's padded box) prunes the query because the
Williams box test requires `t_min_xyz < t_max` strictly, and the slab
entry there is exactly `1`.  The BVH therefore misses a hit the
exhaustive test finds. -/
theorem bvh_hit_not_list_hit_counterexample :
    Hitable.hit
        (.bvhNode
          (.xyRect (Material.lambertian (Texture.constant ⟨1/2, 1/2, 1/2⟩)) 0 1 0 1 1)
          (.xyRect (Material.lambertian (Texture.constant ⟨1/2, 1/2, 1/2⟩)) 0 1 0 1 1)
          (calc_surrounding_box ⟨⟨0, 0, 1 - 0.0001⟩, ⟨1, 1, 1 + 0.0001⟩⟩
            ⟨⟨0, 0, 1 - 0.0001⟩, ⟨1, 1, 1 + 0.0001⟩⟩))
        (Ray.new ⟨-1, 1/2, 0⟩ ⟨1, 1/100, 1⟩ 0) 0.001 1 = none ∧
    Option.map HitRecord.t
        (Hitable.hit
          (.hitableList
            [.xyRect (Material.lambertian (Texture.constant ⟨1/2, 1/2, 1/2⟩)) 0 1 0 1 1])
          (Ray.new ⟨-1, 1/2, 0⟩ ⟨1, 1/100, 1⟩ 0) 0.001 1) = some 1 := by
  constructor
  · have hsx : (Ray.new (Vec3.mk (-1) (1/2) 0) ⟨1, 1/100, 1⟩ 0).signX = false := by
      rw [Ray.new_signX]; simp only [decide_eq_false_iff_not, not_lt]; norm_num
    have hsy : (Ray.new (Vec3.mk (-1) (1/2) 0) ⟨1, 1/100, 1⟩ 0).signY = false := by
      rw [Ray.new_signY]; simp only [decide_eq_false_iff_not, not_lt]; norm_num
    have hsz : (Ray.new (Vec3.mk (-1) (1/2) 0) ⟨1, 1/100, 1⟩ 0).signZ = false := by
      rw [Ray.new_signZ]; simp only [decide_eq_false_iff_not, not_lt]; norm_num
    have hbox : (calc_surrounding_box ⟨⟨0, 0, 1 - 0.0001⟩, ⟨1, 1, 1 + 0.0001⟩⟩
        ⟨⟨0, 0, 1 - 0.0001⟩, ⟨1, 1, 1 + 0.0001⟩⟩).hit
        (Ray.new ⟨-1, 1/2, 0⟩ ⟨1, 1/100, 1⟩ 0) 0.001 1 = false := by
      rw [AxisAlignedBoundingBox.hit]
      simp only [hsx, hsy, hsz, Ray.new_origin, Ray.new_invert, calc_surrounding_box,
        AxisAlignedBoundingBox.bounds, Bool.not_false, if_true, if_false,
        Bool.false_eq_true, Bool.true_eq_false, Vec3.mk_x, Vec3.mk_y, Vec3.mk_z]
      norm_num
    rw [Hitable.hit, hbox]
    simp
  · rw [Hitable.hit, hitable_list_hit_fold, Hitable.hit, xy_rect_hit_eq]
    simp only [Ray.new_origin, Ray.new_direction, Vec3.mk_x, Vec3.mk_y, Vec3.mk_z]
    norm_num [hitable_list_hit_fold]

end RustTracer
